import Mathlib

/-!
# SFMLife: Conway's Game of Life on a torus, with play / pause / step / undo

A shallow embedding of `src/main.cpp`.

* `std::vector<std::vector<bool>>` is `List (List Bool)`.  `v[i][j]` on a vector is
  undefined outside the vector's range, so every read and write of a cell is an
  `Option`-valued operation and `none` stands for an out-of-range access.
* `int` is modelled in `Int`; `%` and `/` are the truncating `Int.tmod` and `Int.tdiv`.
  Every value the program computes from the grid constants stays far inside 32 bits.
* The constants `GRID_HEIGHT` and `GRID_WIDTH` appear as the parameters `H` and `W`
  of the functions that use them, so that the rule engine can be studied on any torus;
  the program itself is the instance `H = GRID_HEIGHT`, `W = GRID_WIDTH`.
* `std::uniform_int_distribution` driven by a fresh `std::mt19937` is a stream of draws
  `gen : Nat → Int`, draw number `k` being the `k`-th value `distr(gen)` returns.
-/

namespace SFMLife

/-! ## Constants -/

def WINDOW_WIDTH : Int := 1200
def WINDOW_HEIGHT : Int := 800
def GRID_SIZE : Int := 5
def GRID_WIDTH : Nat := (WINDOW_WIDTH.tdiv GRID_SIZE).toNat
def GRID_HEIGHT : Nat := (WINDOW_HEIGHT.tdiv GRID_SIZE).toNat
def PLAYING_FRAMERATE : Int := 24
def DRAWING_FRAMERATE : Int := 100
def ALIVE : Bool := true
def DEAD : Bool := false

/-! ## Grids -/

/-- The type of `std::vector<std::vector<bool>>`. -/
abbrev Grid := List (List Bool)

/-- Read `g[r][c]`; `none` when either index is outside its vector. -/
def Grid.at? (g : Grid) (r c : Int) : Option Bool :=
  if r < 0 ∨ c < 0 then none
  else
    match g[r.toNat]? with
    | none => none
    | some row => row[c.toNat]?

/-- Write `g[r][c] = v`; `none` when either index is outside its vector. -/
def Grid.set? (g : Grid) (r c : Int) (v : Bool) : Option Grid :=
  if r < 0 ∨ c < 0 then none
  else
    match g[r.toNat]? with
    | none => none
    | some row =>
      if c.toNat < row.length then some (g.set r.toNat (row.set c.toNat v)) else none

/-- A grid of exactly `H` rows of exactly `W` columns. -/
def WellSized (H W : Nat) (g : Grid) : Prop :=
  g.length = H ∧ ∀ row ∈ g, row.length = W

instance (H W : Nat) (g : Grid) : Decidable (WellSized H W g) := by
  unfold WellSized; infer_instance

/-- Total view of a cell, used to state properties: `g[i][j]`, and `DEAD` off the grid. -/
def cell (g : Grid) (i j : Nat) : Bool := (g.getD i []).getD j DEAD

/-! ## Loops -/

/-- The loop `for (int k = 0; k < n; k++) body(k)`, threading the state `s`;
an undefined access inside the body makes the whole loop undefined. -/
def forLoop {σ : Type} (n : Nat) (body : Nat → σ → Option σ) (s : σ) : Option σ :=
  match n with
  | 0 => some s
  | k + 1 => (forLoop k body s).bind (body k)

/-! ## The rule engine -/

/-- `modulo(a, b)`: `(b + (a % b)) % b` with C++ truncating remainder. -/
def modulo (a b : Int) : Int := (b + a.tmod b).tmod b

/-- The statement `if (c == ALIVE) numNeighbors++;`. -/
def bump (numNeighbors : Int) (c : Bool) : Int :=
  if c = ALIVE then numNeighbors + 1 else numNeighbors

/-- The body of the inner loop of `updateCells` for cell `(i, j)`: eight neighbour reads
of `currentCells`, then the rule, written to `nextCells[i][j]`. -/
def updateCell (H W : Nat) (currentCells : Grid) (i j : Nat) (nextCells : Grid) :
    Option Grid := do
  let LEFT := modulo ((j : Int) - 1) W
  let RIGHT := modulo ((j : Int) + 1) W
  let UP := modulo ((i : Int) - 1) H
  let DOWN := modulo ((i : Int) + 1) H
  let numNeighbors : Int := 0
  let numNeighbors := bump numNeighbors (← currentCells.at? UP LEFT)
  let numNeighbors := bump numNeighbors (← currentCells.at? UP j)
  let numNeighbors := bump numNeighbors (← currentCells.at? UP RIGHT)
  let numNeighbors := bump numNeighbors (← currentCells.at? i LEFT)
  let numNeighbors := bump numNeighbors (← currentCells.at? i RIGHT)
  let numNeighbors := bump numNeighbors (← currentCells.at? DOWN LEFT)
  let numNeighbors := bump numNeighbors (← currentCells.at? DOWN j)
  let numNeighbors := bump numNeighbors (← currentCells.at? DOWN RIGHT)
  let here ← currentCells.at? i j
  if here = ALIVE ∧ (numNeighbors = 2 ∨ numNeighbors = 3) then
    nextCells.set? i j ALIVE
  else if here = DEAD ∧ numNeighbors = 3 then
    nextCells.set? i j ALIVE
  else
    nextCells.set? i j DEAD

/-- `updateCells(currentCells, nextCells)`: the scan over all cells followed by
`std::swap`.  The result is the pair of the two reference parameters after the call:
the first component is what the caller now sees as `currentCells`. -/
def updateCells (H W : Nat) (currentCells nextCells : Grid) : Option (Grid × Grid) :=
  (forLoop H (fun i next => forLoop W (fun j next => updateCell H W currentCells i j next) next)
    nextCells).map fun next => (next, currentCells)

/-! ## The initializer -/

/-- `initCells(randomize)`.  The state of the loops is the grid built so far and the
number of draws already taken from `distr(gen)`; every inner iteration takes one draw,
since `distr(gen) == 0` is evaluated before `&& randomize`. -/
def initCells (H W : Nat) (randomize : Bool) (gen : Nat → Int) : Option Grid :=
  (forLoop H (fun i (st : Grid × Nat) =>
      let row := List.replicate W DEAD
      let cells := st.1 ++ [row]
      forLoop W (fun j (st : Grid × Nat) =>
          let draw := gen st.2
          if draw = 0 ∧ randomize = true then
            (st.1.set? i j ALIVE).map fun cells => (cells, st.2 + 1)
          else
            some (st.1, st.2 + 1))
        (cells, st.2))
    ([], 0)).map Prod.fst

/-! ## The session: the variables of `main` and its event loop -/

/-- The keys `main` distinguishes; every other scancode is `Other`. -/
inductive Scancode where
  | Right | Left | Space | Backspace | Enter | Escape | Other
  deriving DecidableEq, Repr

/-- Mouse buttons of `sf::Mouse::Button`. -/
inductive Button where
  | Left | Right | Middle | Extra1 | Extra2
  deriving DecidableEq, Repr

/-- The events `window.pollEvent()` can return; `Other` is every event type `main`
does not test for. -/
inductive Event where
  | Closed
  | KeyPressed (scancode : Scancode)
  | KeyReleased (scancode : Scancode)
  | MouseButtonPressed (button : Button) (x y : Int)
  | MouseButtonReleased (button : Button) (x y : Int)
  | MouseMoved (x y : Int)
  | Other
  deriving DecidableEq, Repr

/-- The variables of `main`, the global `currentFramerate`, and whether the window is
open.  `stepOne` is the flag declared at the top of every pass of the outer loop. -/
structure Session where
  cells : Grid
  previousCells : Grid
  savedCells : Grid
  isPlaying : Bool
  saveOnStart : Bool
  leftMouseButtonHeld : Bool
  rightMouseButtonHeld : Bool
  stepOne : Bool
  currentFramerate : Int
  windowOpen : Bool
  deriving DecidableEq, Repr

/-- The index the mouse handlers compute from a pixel coordinate:
`(p - (p % GRID_SIZE)) / GRID_SIZE`. -/
def cellIndex (p : Int) : Int := (p - p.tmod GRID_SIZE).tdiv GRID_SIZE

/-- One pass of the body of `while (const std::optional event = window.pollEvent())`.
`gen` is the stream of draws an `initCells` call made by this event would see. -/
def handleEvent (H W : Nat) (gen : Nat → Int) (s : Session) : Event → Option Session
  | .Closed => some { s with windowOpen := false }
  | .KeyPressed .Right =>
    let s := { s with stepOne := true }
    if s.saveOnStart then
      some { s with savedCells := s.cells, saveOnStart := false }
    else some s
  | .KeyPressed .Left =>
    let s := { s with cells := s.savedCells }
    if !s.isPlaying then some { s with saveOnStart := true } else some s
  | .KeyPressed _ => some s
  | .KeyReleased .Space =>
    let s := { s with isPlaying := !s.isPlaying }
    let s := { s with
      currentFramerate := if s.isPlaying then PLAYING_FRAMERATE else DRAWING_FRAMERATE }
    if s.isPlaying && s.saveOnStart then
      some { s with savedCells := s.cells, saveOnStart := false }
    else some s
  | .KeyReleased .Backspace =>
    (initCells H W false gen).map fun c => { s with cells := c, saveOnStart := true }
  | .KeyReleased .Enter =>
    (initCells H W true gen).map fun c => { s with cells := c }
  | .KeyReleased .Escape => some { s with windowOpen := false }
  | .KeyReleased _ => some s
  | .MouseButtonPressed .Left x y =>
    if !s.isPlaying then
      let colIndex := cellIndex x
      let rowIndex := cellIndex y
      (s.cells.set? rowIndex colIndex ALIVE).map fun c =>
        { s with cells := c, leftMouseButtonHeld := true }
    else some s
  | .MouseButtonPressed .Right x y =>
    if !s.isPlaying then
      let colIndex := cellIndex x
      let rowIndex := cellIndex y
      (s.cells.set? rowIndex colIndex DEAD).map fun c =>
        { s with cells := c, rightMouseButtonHeld := true }
    else some s
  | .MouseButtonPressed _ _ _ => some s
  | .MouseButtonReleased .Left _ _ => some { s with leftMouseButtonHeld := false }
  | .MouseButtonReleased .Right _ _ => some { s with rightMouseButtonHeld := false }
  | .MouseButtonReleased _ _ _ => some s
  | .MouseMoved x y =>
    if !s.isPlaying && s.leftMouseButtonHeld then
      let colIndex := cellIndex x
      let rowIndex := cellIndex y
      if rowIndex < H ∧ colIndex < W then
        (s.cells.set? rowIndex colIndex ALIVE).map fun c => { s with cells := c }
      else some s
    else if !s.isPlaying && s.rightMouseButtonHeld then
      let colIndex := cellIndex x
      let rowIndex := cellIndex y
      if rowIndex < H ∧ colIndex < W then
        (s.cells.set? rowIndex colIndex DEAD).map fun c => { s with cells := c }
      else some s
    else some s
  | .Other => some s

/-- The inner `while` loop: the pending events are handled in order.  Once the window
has been closed `pollEvent` returns no event, so the events still pending are dropped. -/
def pollEvents (H W : Nat) : List (Event × (Nat → Int)) → Session → Option Session
  | [], s => some s
  | (e, gen) :: rest, s =>
    if s.windowOpen then (handleEvent H W gen s e).bind (pollEvents H W rest)
    else some s

/-- `drawGridFromCells(window, cells)`: every cell `cells[row][col]` of the
`H x W` range is read to pick its colour; the session is not changed. -/
def drawGridFromCells (H W : Nat) (cells : Grid) : Option Unit :=
  forLoop H (fun row u => forLoop W (fun col u => (cells.at? row col).map fun _ => u) u) ()

/-- One pass of the body of `while (window.isOpen())`: `stepOne` is reset, the pending
events are handled, the grid is drawn, and the grid advances when
`isPlaying || stepOne`. -/
def tick (H W : Nat) (events : List (Event × (Nat → Int))) (s : Session) :
    Option Session :=
  (pollEvents H W events { s with stepOne := false }).bind fun s =>
    (drawGridFromCells H W s.cells).bind fun _ =>
      if s.isPlaying || s.stepOne then
        (updateCells H W s.cells s.previousCells).map fun p =>
          { s with cells := p.1, previousCells := p.2 }
      else some s

/-- The session as `main` sets it up before the first pass of the loop. -/
def initialSession (H W : Nat) (gen : Nat → Int) : Option Session :=
  (initCells H W true gen).map fun cells =>
    { cells := cells, previousCells := cells, savedCells := cells,
      isPlaying := true, saveOnStart := false,
      leftMouseButtonHeld := false, rightMouseButtonHeld := false,
      stepOne := false, currentFramerate := PLAYING_FRAMERATE, windowOpen := true }

/-! ## The rule as the specification words it -/

/-- The eight offsets `(di, dj)` with `di, dj ∈ {-1, 0, 1}`, not both `0`. -/
def neighbourOffsets : List (Int × Int) :=
  [(-1, -1), (-1, 0), (-1, 1), (0, -1), (0, 1), (1, -1), (1, 0), (1, 1)]

/-- The number of ALIVE cells of `g` among the eight positions
`((i + di) mod H, (j + dj) mod W)`, with the mathematical (non-negative) `mod`. -/
def aliveNeighbours (H W : Nat) (g : Grid) (i j : Nat) : Nat :=
  neighbourOffsets.countP fun d =>
    cell g (((i : Int) + d.1) % (H : Int)).toNat (((j : Int) + d.2) % (W : Int)).toNat = ALIVE

/-- The transition rule: an ALIVE cell with two or three ALIVE neighbours stays ALIVE, a
DEAD cell with exactly three becomes ALIVE, every other cell is DEAD. -/
def lifeRule (alive : Bool) (n : Nat) : Bool :=
  (alive = ALIVE ∧ (n = 2 ∨ n = 3)) ∨ (alive = DEAD ∧ n = 3)

/-- The next generation of `g` on the `H × W` torus. -/
def lifeStep (H W : Nat) (g : Grid) : Grid :=
  (List.range H).map fun i =>
    (List.range W).map fun j => lifeRule (cell g i j) (aliveNeighbours H W g i j)

/-! ## Auxiliary definitions for the proofs -/

/-- The grid `g` with `g[i][j]` replaced by `v`. -/
def setCell (g : Grid) (i j : Nat) (v : Bool) : Grid :=
  g.set i ((g.getD i []).set j v)

/-- The value `updateCells` writes for a cell, from the nine values it reads. -/
def written (here b1 b2 b3 b4 b5 b6 b7 b8 : Bool) : Bool :=
  let n := bump (bump (bump (bump (bump (bump (bump (bump 0 b1) b2) b3) b4) b5) b6) b7) b8
  if here = ALIVE ∧ (n = 2 ∨ n = 3) then ALIVE
  else if here = DEAD ∧ n = 3 then ALIVE
  else DEAD

/-- The number of `true` among eight Booleans. -/
def count8 (b1 b2 b3 b4 b5 b6 b7 b8 : Bool) : Nat :=
  b1.toNat + b2.toNat + b3.toNat + b4.toNat + b5.toNat + b6.toNat + b7.toNat + b8.toNat

/-- Row (or column) before `i` on a torus of `H` rows (columns). -/
def up (H i : Nat) : Nat := (((i : Int) + -1) % (H : Int)).toNat

/-- Row (or column) after `i` on a torus of `H` rows (columns). -/
def down (H i : Nat) : Nat := (((i : Int) + 1) % (H : Int)).toNat

/-- The all-DEAD grid of `H` rows and `W` columns. -/
def deadGrid (H W : Nat) : Grid := List.replicate H (List.replicate W DEAD)

/-! ## Repeated generations and concrete inputs -/

/-- `updateCells` applied `k` times to the same two buffers, as the main loop does on
consecutive passes while playing. -/
def updateCellsTimes (H W : Nat) : Nat → Grid × Grid → Option (Grid × Grid)
  | 0, p => some p
  | k + 1, p => (updateCells H W p.1 p.2).bind (updateCellsTimes H W k)

/-- A 3 x 3 grid, all DEAD except the centre. -/
def loneCentre : Grid :=
  [[false, false, false], [false, true, false], [false, false, false]]

/-- A 4 x 4 grid whose ALIVE cells are the 2 x 2 block at rows 1, 2 and columns 1, 2. -/
def block4 : Grid :=
  [[false, false, false, false], [false, true, true, false],
   [false, true, true, false], [false, false, false, false]]

/-- The all-DEAD grid of the program's size. -/
def blankGrid : Grid := deadGrid GRID_HEIGHT GRID_WIDTH

/-- A paused session of the program's size with every buffer blank and no snapshot
pending: the state after clear, play, pause. -/
def pausedBlank : Session :=
  { cells := blankGrid, previousCells := blankGrid, savedCells := blankGrid,
    isPlaying := false, saveOnStart := false,
    leftMouseButtonHeld := false, rightMouseButtonHeld := false,
    stepOne := false, currentFramerate := DRAWING_FRAMERATE, windowOpen := true }

/-- The stream of draws that always returns 1. -/
def onesGen : Nat → Int := fun _ => 1

/-- A paused 3 x 3 session showing `loneCentre`, with a snapshot pending. -/
def pausedLone : Session :=
  { cells := loneCentre, previousCells := deadGrid 3 3, savedCells := deadGrid 3 3,
    isPlaying := false, saveOnStart := true,
    leftMouseButtonHeld := false, rightMouseButtonHeld := false,
    stepOne := false, currentFramerate := DRAWING_FRAMERATE, windowOpen := true }

/-- The pointer events: button presses, button releases and moves. -/
def Event.isPointer : Event → Bool
  | .MouseButtonPressed _ _ _ => true
  | .MouseButtonReleased _ _ _ => true
  | .MouseMoved _ _ => true
  | _ => false

/-- The grid in which cell `(i, j)` is ALIVE exactly when `randomize` holds and draw
number `i * W + j` is 0. -/
def drawnGrid (H W : Nat) (randomize : Bool) (gen : Nat → Int) : Grid :=
  (List.range H).map fun i =>
    (List.range W).map fun j => decide (gen (i * W + j) = 0 ∧ randomize = true)

/-- All three buffers of the session have `H` rows of `W` columns. -/
def SizedSession (H W : Nat) (s : Session) : Prop :=
  WellSized H W s.cells ∧ WellSized H W s.previousCells ∧ WellSized H W s.savedCells

instance (H W : Nat) (s : Session) : Decidable (SizedSession H W s) := by
  unfold SizedSession; infer_instance

/-- The loop `while (window.isOpen())`: `passes` lists, pass by pass, the events pending
when that pass polls, each with the draws an `initCells` call it triggers would see.
The result is the session when the passes are used up or the window has been closed. -/
def runLoop (H W : Nat) : List (List (Event × (Nat → Int))) → Session → Option Session
  | [], s => some s
  | events :: rest, s =>
    if s.windowOpen then (tick H W events s).bind (runLoop H W rest) else some s

/-- The session of `main` after the given passes of its loop; `gen` is the stream of
draws of the initial `initCells(true)`. -/
def mainAfter (H W : Nat) (gen : Nat → Int) (passes : List (List (Event × (Nat → Int)))) :
    Option Session :=
  (initialSession H W gen).bind (runLoop H W passes)

/-- An event whose computed cell indices, if it is a left or right press or a move, lie
inside the `H x W` grid; every other event qualifies. -/
def Event.inRange (H W : Nat) : Event → Bool
  | .MouseButtonPressed .Left x y =>
    decide (0 ≤ cellIndex y ∧ cellIndex y < H ∧ 0 ≤ cellIndex x ∧ cellIndex x < W)
  | .MouseButtonPressed .Right x y =>
    decide (0 ≤ cellIndex y ∧ cellIndex y < H ∧ 0 ≤ cellIndex x ∧ cellIndex x < W)
  | .MouseMoved x y =>
    decide (0 ≤ cellIndex y ∧ cellIndex y < H ∧ 0 ≤ cellIndex x ∧ cellIndex x < W)
  | _ => true

/-- A playing 3 x 3 session showing `loneCentre`. -/
def playingLone : Session :=
  { cells := loneCentre, previousCells := deadGrid 3 3, savedCells := deadGrid 3 3,
    isPlaying := true, saveOnStart := false,
    leftMouseButtonHeld := false, rightMouseButtonHeld := false,
    stepOne := false, currentFramerate := PLAYING_FRAMERATE, windowOpen := true }

/-- Three passes of the loop: pause; a left press at pixel (7, 7); one step. -/
def samplePasses : List (List (Event × (Nat → Int))) :=
  [[(.KeyReleased .Space, onesGen)], [(.MouseButtonPressed .Left 7 7, onesGen)],
   [(.KeyPressed .Right, onesGen)]]

/-- A 5 x 5 grid whose ALIVE cells are the horizontal line (2, 1), (2, 2), (2, 3). -/
def blinker5 : Grid :=
  [[false, false, false, false, false], [false, false, false, false, false],
   [false, true, true, true, false], [false, false, false, false, false],
   [false, false, false, false, false]]

/-- A 3 x 3 grid whose ALIVE cells are (2, 2), (0, 1) and (1, 0). -/
def corner3 : Grid :=
  [[false, true, false], [true, false, false], [false, false, true]]

/-- The first half of the inner loop body of `updateCells` for cell `(i, j)`
(main.cpp:220-241): the four wrapped indices and the eight neighbour reads; the result
is the value of `numNeighbors` when the rule is about to be applied. -/
def numNeighbors (H W : Nat) (currentCells : Grid) (i j : Nat) : Option Int := do
  let LEFT := modulo ((j : Int) - 1) W
  let RIGHT := modulo ((j : Int) + 1) W
  let UP := modulo ((i : Int) - 1) H
  let DOWN := modulo ((i : Int) + 1) H
  let numNeighbors : Int := 0
  let numNeighbors := bump numNeighbors (← currentCells.at? UP LEFT)
  let numNeighbors := bump numNeighbors (← currentCells.at? UP j)
  let numNeighbors := bump numNeighbors (← currentCells.at? UP RIGHT)
  let numNeighbors := bump numNeighbors (← currentCells.at? i LEFT)
  let numNeighbors := bump numNeighbors (← currentCells.at? i RIGHT)
  let numNeighbors := bump numNeighbors (← currentCells.at? DOWN LEFT)
  let numNeighbors := bump numNeighbors (← currentCells.at? DOWN j)
  let numNeighbors := bump numNeighbors (← currentCells.at? DOWN RIGHT)
  pure numNeighbors

/-- A 3 x 3 grid whose ALIVE cells are (0, 0), (2, 1) and (1, 2). -/
def origin3 : Grid :=
  [[true, false, false], [false, false, true], [false, true, false]]

/-! ## Cells of well-sized grids -/

theorem WellSized.row_length {H W : Nat} {g : Grid} (h : WellSized H W g) {i : Nat}
    (hi : i < H) : (g.getD i []).length = W := by
  obtain ⟨hl, hrow⟩ := h
  have hi2 : i < g.length := by omega
  rw [List.getD_eq_getElem g [] hi2]
  exact hrow _ (List.getElem_mem hi2)

theorem at?_eq_cell {H W : Nat} {g : Grid} (h : WellSized H W g) {r c : Int}
    (hr0 : 0 ≤ r) (hr : r < H) (hc0 : 0 ≤ c) (hc : c < W) :
    g.at? r c = some (cell g r.toNat c.toNat) := by
  have hi : r.toNat < H := by omega
  have hj : c.toNat < W := by omega
  have hlen := h.row_length hi
  have hi2 : r.toNat < g.length := by rw [h.1]; exact hi
  unfold Grid.at? cell
  rw [if_neg (by omega), List.getElem?_eq_getElem hi2]
  simp only []
  rw [List.getD_eq_getElem g [] hi2] at hlen ⊢
  have hj2 : c.toNat < (g[r.toNat]).length := by omega
  rw [List.getElem?_eq_getElem hj2, List.getD_eq_getElem _ _ hj2]

theorem at?_nat {H W : Nat} {g : Grid} (h : WellSized H W g) {i j : Nat}
    (hi : i < H) (hj : j < W) : g.at? (i : Int) (j : Int) = some (cell g i j) := by
  have := at?_eq_cell h (Int.ofNat_nonneg i) (Int.ofNat_lt.mpr hi) (Int.ofNat_nonneg j)
    (Int.ofNat_lt.mpr hj)
  simpa using this

theorem set?_eq_setCell {H W : Nat} {g : Grid} (h : WellSized H W g) {r c : Int}
    (hr0 : 0 ≤ r) (hr : r < H) (hc0 : 0 ≤ c) (hc : c < W) (v : Bool) :
    g.set? r c v = some (setCell g r.toNat c.toNat v) := by
  have hi : r.toNat < H := by omega
  have hj : c.toNat < W := by omega
  have hlen := h.row_length hi
  have hi2 : r.toNat < g.length := by rw [h.1]; exact hi
  unfold Grid.set? setCell
  rw [if_neg (by omega), List.getElem?_eq_getElem hi2]
  simp only []
  rw [List.getD_eq_getElem g [] hi2] at hlen ⊢
  rw [if_pos (by omega)]

theorem set?_nat {H W : Nat} {g : Grid} (h : WellSized H W g) {i j : Nat}
    (hi : i < H) (hj : j < W) (v : Bool) :
    g.set? (i : Int) (j : Int) v = some (setCell g i j v) := by
  have := set?_eq_setCell h (Int.ofNat_nonneg i) (Int.ofNat_lt.mpr hi) (Int.ofNat_nonneg j)
    (Int.ofNat_lt.mpr hj) v
  simpa using this

theorem setCell_wellSized {H W : Nat} {g : Grid} (h : WellSized H W g) (i j : Nat)
    (v : Bool) : WellSized H W (setCell g i j v) := by
  by_cases hi : i < H
  · refine ⟨by simp [setCell, h.1], ?_⟩
    intro row hrow
    unfold setCell at hrow
    rcases List.mem_or_eq_of_mem_set hrow with hmem | heq
    · exact h.2 row hmem
    · subst heq
      rw [List.length_set]
      exact h.row_length hi
  · have : setCell g i j v = g := by
      unfold setCell
      apply List.set_eq_of_length_le; rw [h.1]; omega
    rw [this]; exact h

theorem cell_setCell {H W : Nat} {g : Grid} (h : WellSized H W g) {i j : Nat}
    (hi : i < H) (hj : j < W) (v : Bool) (a b : Nat) :
    cell (setCell g i j v) a b = if a = i ∧ b = j then v else cell g a b := by
  have hi2 : i < g.length := by rw [h.1]; exact hi
  have hlen := h.row_length hi
  rw [List.getD_eq_getElem?_getD] at hlen
  unfold cell setCell
  simp only [List.getD_eq_getElem?_getD, List.getElem?_set]
  by_cases ha : i = a
  · subst ha
    simp only [if_pos hi2, if_true, Option.getD_some, List.getElem?_set, true_and]
    by_cases hb : j = b
    · subst hb
      simp [hlen, hj]
    · simp [hb, Ne.symm hb]
  · simp [ha, Ne.symm ha]

/-- Two grids of the same size with the same cells are the same grid. -/
theorem grid_ext {H W : Nat} {g1 g2 : Grid} (h1 : WellSized H W g1) (h2 : WellSized H W g2)
    (hc : ∀ i j, i < H → j < W → cell g1 i j = cell g2 i j) : g1 = g2 := by
  apply List.ext_getElem (by rw [h1.1, h2.1])
  intro i hi1 hi2
  have hi : i < H := by rw [← h1.1]; exact hi1
  have hl1 : (g1[i]).length = W := h1.2 _ (List.getElem_mem hi1)
  have hl2 : (g2[i]).length = W := h2.2 _ (List.getElem_mem hi2)
  apply List.ext_getElem (by rw [hl1, hl2])
  intro j hj1 hj2
  have hj : j < W := by rw [← hl1]; exact hj1
  have := hc i j hi hj
  unfold cell at this
  rw [List.getD_eq_getElem g1 [] hi1, List.getD_eq_getElem g2 [] hi2,
    List.getD_eq_getElem _ _ hj1, List.getD_eq_getElem _ _ hj2] at this
  exact this

/-! ## `modulo` on a positive modulus -/

theorem neg_lt_tmod (a : Int) {b : Int} (hb : 0 < b) : -b < a.tmod b := by
  obtain ⟨k, rfl⟩ := Int.eq_ofNat_of_zero_le hb.le
  cases a with
  | ofNat n =>
    have := Int.tmod_nonneg (a := Int.ofNat n) (k : Int) (Int.ofNat_nonneg n)
    omega
  | negSucc n =>
    have hk : 0 < k := by exact_mod_cast hb
    have h1 : (Int.negSucc n).tmod (k : Int) = -(((n + 1) % k : Nat) : Int) := rfl
    have h2 : (n + 1) % k < k := Nat.mod_lt _ hk
    rw [h1]
    omega

/-- On a positive modulus `modulo` is the mathematical remainder. -/
theorem modulo_eq_emod (a : Int) {b : Int} (hb : 0 < b) : modulo a b = a % b := by
  unfold modulo
  have h1 := neg_lt_tmod a hb
  rw [Int.tmod_eq_emod (by omega) hb.le, Int.tmod_def, Int.add_comm, Int.sub_eq_add_neg,
    Int.add_assoc]
  rw [show -(b * a.tdiv b) + b = b * (1 - a.tdiv b) by ring, Int.add_mul_emod_self_left]

theorem modulo_nonneg (a : Int) {b : Int} (hb : 0 < b) : 0 ≤ modulo a b := by
  rw [modulo_eq_emod a hb]; exact Int.emod_nonneg a (by omega)

theorem modulo_lt (a : Int) {b : Int} (hb : 0 < b) : modulo a b < b := by
  rw [modulo_eq_emod a hb]; exact Int.emod_lt_of_pos a hb

/-! ## One cell of the scan -/

theorem written_eq_lifeRule (here b1 b2 b3 b4 b5 b6 b7 b8 : Bool) :
    written here b1 b2 b3 b4 b5 b6 b7 b8 = lifeRule here (count8 b1 b2 b3 b4 b5 b6 b7 b8) := by
  revert here b1 b2 b3 b4 b5 b6 b7 b8
  decide

theorem up_lt {H i : Nat} (hH : 0 < H) : up H i < H := by
  unfold up
  have h1 := Int.emod_nonneg ((i : Int) + -1) (b := (H : Int)) (by omega)
  have h2 := Int.emod_lt_of_pos ((i : Int) + -1) (b := (H : Int)) (by omega)
  omega

theorem down_lt {H i : Nat} (hH : 0 < H) : down H i < H := by
  unfold down
  have h1 := Int.emod_nonneg ((i : Int) + 1) (b := (H : Int)) (by omega)
  have h2 := Int.emod_lt_of_pos ((i : Int) + 1) (b := (H : Int)) (by omega)
  omega

theorem mid_eq {H i : Nat} (hi : i < H) : (((i : Int) + 0) % (H : Int)).toNat = i := by
  rw [Int.add_zero, Int.emod_eq_of_lt (by omega) (by omega)]; simp

theorem aliveNeighbours_eq_count8 {H W : Nat} (g : Grid) {i j : Nat} (hi : i < H) (hj : j < W) :
    aliveNeighbours H W g i j =
      count8 (cell g (up H i) (up W j)) (cell g (up H i) j) (cell g (up H i) (down W j))
        (cell g i (up W j)) (cell g i (down W j))
        (cell g (down H i) (up W j)) (cell g (down H i) j) (cell g (down H i) (down W j)) := by
  unfold aliveNeighbours neighbourOffsets count8
  simp only [List.countP_cons, List.countP_nil, mid_eq hi, mid_eq hj, decide_eq_true_eq, ALIVE]
  unfold up down
  simp only [Bool.toNat, Bool.cond_eq_ite]
  omega

theorem updateCell_eq {H W : Nat} {cur next : Grid} (hc : WellSized H W cur)
    (hn : WellSized H W next) {i j : Nat} (hi : i < H) (hj : j < W) :
    updateCell H W cur i j next =
      some (setCell next i j (lifeRule (cell cur i j) (aliveNeighbours H W cur i j))) := by
  have hH : (0 : Int) < H := by omega
  have hW : (0 : Int) < W := by omega
  have hU0 := modulo_nonneg ((i : Int) - 1) hH
  have hU1 := modulo_lt ((i : Int) - 1) hH
  have hD0 := modulo_nonneg ((i : Int) + 1) hH
  have hD1 := modulo_lt ((i : Int) + 1) hH
  have hL0 := modulo_nonneg ((j : Int) - 1) hW
  have hL1 := modulo_lt ((j : Int) - 1) hW
  have hR0 := modulo_nonneg ((j : Int) + 1) hW
  have hR1 := modulo_lt ((j : Int) + 1) hW
  have hi0 := Int.ofNat_nonneg i
  have hj0 := Int.ofNat_nonneg j
  have hi1 : (i : Int) < H := by omega
  have hj1 : (j : Int) < W := by omega
  have eU : (modulo ((i : Int) - 1) H).toNat = up H i := by
    rw [modulo_eq_emod _ hH]; rfl
  have eD : (modulo ((i : Int) + 1) H).toNat = down H i := by
    rw [modulo_eq_emod _ hH]; rfl
  have eL : (modulo ((j : Int) - 1) W).toNat = up W j := by
    rw [modulo_eq_emod _ hW]; rfl
  have eR : (modulo ((j : Int) + 1) W).toNat = down W j := by
    rw [modulo_eq_emod _ hW]; rfl
  unfold updateCell
  simp only [at?_eq_cell hc hU0 hU1 hL0 hL1, at?_eq_cell hc hU0 hU1 hj0 hj1,
    at?_eq_cell hc hU0 hU1 hR0 hR1, at?_eq_cell hc hi0 hi1 hL0 hL1,
    at?_eq_cell hc hi0 hi1 hR0 hR1, at?_eq_cell hc hD0 hD1 hL0 hL1,
    at?_eq_cell hc hD0 hD1 hj0 hj1, at?_eq_cell hc hD0 hD1 hR0 hR1,
    at?_eq_cell hc hi0 hi1 hj0 hj1, eU, eD, eL, eR, Int.toNat_ofNat,
    Option.pure_def, Option.bind_eq_bind, Option.some_bind, set?_nat hn hi hj]
  rw [aliveNeighbours_eq_count8 cur hi hj, ← written_eq_lifeRule]
  unfold written
  simp only []
  split_ifs <;> rfl

/-! ## Loop invariants and the whole scan -/

theorem forLoop_inv {σ : Type} (Inv : Nat → σ → Prop) (n : Nat) (body : Nat → σ → Option σ)
    (s : σ) (h0 : Inv 0 s)
    (hstep : ∀ k t, k < n → Inv k t → ∃ t', body k t = some t' ∧ Inv (k + 1) t') :
    ∃ t, forLoop n body s = some t ∧ Inv n t := by
  induction n with
  | zero => exact ⟨s, rfl, h0⟩
  | succ n ih =>
    obtain ⟨s1, h1, hI⟩ := ih (fun k t hk => hstep k t (by omega))
    obtain ⟨s2, h2, hI2⟩ := hstep n s1 (by omega) hI
    exact ⟨s2, by simp [forLoop, h1, h2], hI2⟩

theorem lifeStep_wellSized (H W : Nat) (g : Grid) : WellSized H W (lifeStep H W g) := by
  refine ⟨by simp [lifeStep], ?_⟩
  intro row hrow
  simp only [lifeStep, List.mem_map] at hrow
  obtain ⟨i, -, rfl⟩ := hrow
  simp

theorem cell_lifeStep {H W : Nat} (g : Grid) {i j : Nat} (hi : i < H) (hj : j < W) :
    cell (lifeStep H W g) i j = lifeRule (cell g i j) (aliveNeighbours H W g i j) := by
  have h : ∀ (g2 : Grid) (v : Bool), g2 = lifeStep H W g →
      v = lifeRule (cell g i j) (aliveNeighbours H W g i j) → cell g2 i j = v := by
    intro g2 v h2 hv
    subst h2
    unfold cell lifeStep
    simp [List.getD_eq_getElem?_getD, hi, hj, hv]
  exact h _ _ rfl rfl

/-- The inner loop of `updateCells` on row `i` rewrites exactly that row. -/
theorem scanRow_spec {H W : Nat} {cur next : Grid} (hc : WellSized H W cur)
    (hn : WellSized H W next) {i : Nat} (hi : i < H) :
    ∃ t, forLoop W (fun j nx => updateCell H W cur i j nx) next = some t ∧
      WellSized H W t ∧ ∀ a b, a < H → b < W →
        cell t a b = if a = i then cell (lifeStep H W cur) a b else cell next a b := by
  have key := forLoop_inv
    (fun j (t : Grid) => WellSized H W t ∧ ∀ a b, a < H → b < W →
      cell t a b = if a = i ∧ b < j then cell (lifeStep H W cur) a b else cell next a b)
    W (fun j nx => updateCell H W cur i j nx) next
    ⟨hn, by intro a b _ _; simp⟩
    (by
      intro j t hj ⟨ht, hcells⟩
      refine ⟨_, updateCell_eq hc ht hi hj, setCell_wellSized ht _ _ _, ?_⟩
      intro a b ha hb
      rw [cell_setCell ht hi hj, hcells a b ha hb]
      by_cases h1 : a = i ∧ b = j
      · obtain ⟨rfl, rfl⟩ := h1
        rw [if_pos ⟨rfl, rfl⟩, if_pos ⟨rfl, by omega⟩, cell_lifeStep cur hi hj]
      · rw [if_neg h1]
        by_cases h2 : a = i ∧ b < j
        · rw [if_pos h2, if_pos ⟨h2.1, by omega⟩]
        · rw [if_neg h2, if_neg (by omega)])
  obtain ⟨t, ht, hw, hcells⟩ := key
  refine ⟨t, ht, hw, ?_⟩
  intro a b ha hb
  rw [hcells a b ha hb]
  by_cases h : a = i
  · rw [if_pos ⟨h, hb⟩, if_pos h]
  · rw [if_neg (fun hh => h hh.1), if_neg h]

/-- On well-sized buffers `updateCells` is defined; the caller's current grid becomes the
next generation of the old one, and the second buffer holds the old generation. -/
theorem updateCells_eq {H W : Nat} {cur next : Grid} (hc : WellSized H W cur)
    (hn : WellSized H W next) : updateCells H W cur next = some (lifeStep H W cur, cur) := by
  have key := forLoop_inv
    (fun i (t : Grid) => WellSized H W t ∧ ∀ a b, a < H → b < W →
      cell t a b = if a < i then cell (lifeStep H W cur) a b else cell next a b)
    H (fun i nx => forLoop W (fun j nx => updateCell H W cur i j nx) nx) next
    ⟨hn, by intro a b _ _; simp⟩
    (by
      intro i t hi ⟨ht, hcells⟩
      obtain ⟨t2, h2, hw2, hc2⟩ := scanRow_spec hc ht hi
      refine ⟨t2, h2, hw2, ?_⟩
      intro a b ha hb
      rw [hc2 a b ha hb]
      by_cases h1 : a = i
      · rw [if_pos h1, if_pos (by omega)]
      · rw [if_neg h1, hcells a b ha hb]
        by_cases h3 : a < i
        · rw [if_pos h3, if_pos (by omega)]
        · rw [if_neg h3, if_neg (by omega)])
  obtain ⟨t, ht, hw, hcells⟩ := key
  have : t = lifeStep H W cur := by
    apply grid_ext hw (lifeStep_wellSized H W cur)
    intro a b ha hb
    rw [hcells a b ha hb, if_pos ha]
  subst this
  unfold updateCells
  rw [ht]; rfl

/-! ## Wrap-around in closed form, and grids that are a product of rows and columns -/

theorem up_eq {H i : Nat} (hi : i < H) : up H i = if i = 0 then H - 1 else i - 1 := by
  unfold up
  split_ifs with h
  · subst h
    have : ((0 : Nat) : Int) + -1 = ((H : Int) - 1) + (-1) * (H : Int) := by push_cast; ring
    rw [this, Int.add_mul_emod_self, Int.emod_eq_of_lt (by omega) (by omega)]
    omega
  · rw [Int.emod_eq_of_lt (by omega) (by omega)]
    omega

theorem down_eq {H i : Nat} (hi : i < H) : down H i = if i + 1 = H then 0 else i + 1 := by
  unfold down
  split_ifs with h
  · have : (i : Int) + 1 = (H : Int) := by omega
    rw [this, Int.emod_self]; rfl
  · rw [Int.emod_eq_of_lt (by omega) (by omega)]
    omega

theorem aliveNeighbours_separable {H W : Nat} (g : Grid) (R C : Nat → Bool)
    (hsep : ∀ x y, x < H → y < W → cell g x y = (R x && C y)) {i j : Nat}
    (hi : i < H) (hj : j < W) :
    aliveNeighbours H W g i j =
      count8 (R (up H i) && C (up W j)) (R (up H i) && C j) (R (up H i) && C (down W j))
        (R i && C (up W j)) (R i && C (down W j))
        (R (down H i) && C (up W j)) (R (down H i) && C j) (R (down H i) && C (down W j)) := by
  have hU := up_lt (H := H) (i := i) (by omega)
  have hD := down_lt (H := H) (i := i) (by omega)
  have hL := up_lt (H := W) (i := j) (by omega)
  have hR := down_lt (H := W) (i := j) (by omega)
  rw [aliveNeighbours_eq_count8 g hi hj, hsep _ _ hU hL, hsep _ _ hU hj, hsep _ _ hU hR,
    hsep _ _ hi hL, hsep _ _ hi hR, hsep _ _ hD hL, hsep _ _ hD hj, hsep _ _ hD hR]

/-- A lone cell has no ALIVE neighbour, and no cell has exactly three. -/
theorem lone_bools (rU ri rD cL cj cR : Bool) (h1 : ¬(ri = true ∧ rU = true))
    (h2 : ¬(ri = true ∧ rD = true)) (h3 : ¬(cj = true ∧ cL = true))
    (h4 : ¬(cj = true ∧ cR = true)) :
    lifeRule (ri && cj)
      (count8 (rU && cL) (rU && cj) (rU && cR) (ri && cL) (ri && cR)
        (rD && cL) (rD && cj) (rD && cR)) = false := by
  revert rU ri rD cL cj cR
  decide

/-- A cell of a 2 x 2 block has three ALIVE neighbours and no cell outside has three. -/
theorem block_bools (rU ri rD cL cj cR : Bool) (h1 : ri = true → rU = !rD)
    (h2 : ri = false → (rU && rD) = false) (h3 : cj = true → cL = !cR)
    (h4 : cj = false → (cL && cR) = false) :
    lifeRule (ri && cj)
      (count8 (rU && cL) (rU && cj) (rU && cR) (ri && cL) (ri && cR)
        (rD && cL) (rD && cj) (rD && cR)) = (ri && cj) := by
  revert rU ri rD cL cj cR
  decide

/-- The next generation of a grid with a single ALIVE cell is all DEAD. -/
theorem lifeStep_lone {H W : Nat} (hH : 2 ≤ H) (hW : 2 ≤ W) (g : Grid) (a b : Nat)
    (hg : ∀ i j, i < H → j < W → (cell g i j = ALIVE ↔ i = a ∧ j = b)) {i j : Nat}
    (hi : i < H) (hj : j < W) : cell (lifeStep H W g) i j = DEAD := by
  have hsep : ∀ x y, x < H → y < W → cell g x y = (decide (x = a) && decide (y = b)) := by
    intro x y hx hy
    have := hg x y hx hy
    rw [Bool.eq_iff_iff]
    simpa [ALIVE] using this
  rw [cell_lifeStep g hi hj, hsep i j hi hj,
    aliveNeighbours_separable g (fun x => decide (x = a)) (fun y => decide (y = b)) hsep hi hj]
  apply lone_bools
  · rw [up_eq hi]; simp only [decide_eq_true_eq]; split_ifs <;> omega
  · rw [down_eq hi]; simp only [decide_eq_true_eq]; split_ifs <;> omega
  · rw [up_eq hj]; simp only [decide_eq_true_eq]; split_ifs <;> omega
  · rw [down_eq hj]; simp only [decide_eq_true_eq]; split_ifs <;> omega

theorem block_axis_in {H r i : Nat} (hH : 4 ≤ H) (hr : r + 1 < H) (hi : i < H)
    (hin : i = r ∨ i = r + 1) :
    (up H i = r ∨ up H i = r + 1) ↔ ¬(down H i = r ∨ down H i = r + 1) := by
  have hu := up_eq hi
  have hd := down_eq hi
  generalize up H i = u at hu ⊢
  generalize down H i = d at hd ⊢
  split_ifs at hu hd <;> omega

theorem block_axis_out {H r i : Nat} (hH : 4 ≤ H) (hr : r + 1 < H) (hi : i < H) :
    ¬((up H i = r ∨ up H i = r + 1) ∧ (down H i = r ∨ down H i = r + 1)) := by
  have hu := up_eq hi
  have hd := down_eq hi
  generalize up H i = u at hu ⊢
  generalize down H i = d at hd ⊢
  split_ifs at hu hd <;> omega

theorem decide_eq_not_decide {p q : Prop} [Decidable p] [Decidable q] (h : p ↔ ¬q) :
    decide p = !decide q := by
  by_cases hq : q <;> simp [hq, h]

theorem decide_and_eq_false {p q : Prop} [Decidable p] [Decidable q] (h : ¬(p ∧ q)) :
    (decide p && decide q) = false := by
  by_cases hq : q <;> by_cases hp : p <;> simp [hq, hp]; exact h ⟨hp, hq⟩

/-- A 2 x 2 block away from the seam of a torus of at least 4 x 4 is its own next
generation. -/
theorem lifeStep_block {H W : Nat} (hH : 4 ≤ H) (hW : 4 ≤ W) (g : Grid) (r c : Nat)
    (hr : r + 1 < H) (hc : c + 1 < W) (hg : WellSized H W g)
    (hblock : ∀ i j, i < H → j < W →
      (cell g i j = ALIVE ↔ (i = r ∨ i = r + 1) ∧ (j = c ∨ j = c + 1))) :
    lifeStep H W g = g := by
  have hsep : ∀ x y, x < H → y < W →
      cell g x y = (decide (x = r ∨ x = r + 1) && decide (y = c ∨ y = c + 1)) := by
    intro x y hx hy
    have := hblock x y hx hy
    rw [Bool.eq_iff_iff]
    simpa [ALIVE] using this
  apply grid_ext (lifeStep_wellSized H W g) hg
  intro i j hi hj
  rw [cell_lifeStep g hi hj, hsep i j hi hj,
    aliveNeighbours_separable g (fun x => decide (x = r ∨ x = r + 1))
      (fun y => decide (y = c ∨ y = c + 1)) hsep hi hj]
  apply block_bools
  · intro h
    exact decide_eq_not_decide (block_axis_in hH hr hi (of_decide_eq_true h))
  · intro _
    exact decide_and_eq_false (block_axis_out hH hr hi)
  · intro h
    exact decide_eq_not_decide (block_axis_in hW hc hj (of_decide_eq_true h))
  · intro _
    exact decide_and_eq_false (block_axis_out hW hc hj)

/-! ## The initializer without randomization -/

theorem deadGrid_wellSized (H W : Nat) : WellSized H W (deadGrid H W) := by
  refine ⟨by simp [deadGrid], ?_⟩
  intro row hrow
  rw [deadGrid, List.mem_replicate] at hrow
  rw [hrow.2, List.length_replicate]

theorem cell_deadGrid (H W i j : Nat) : cell (deadGrid H W) i j = DEAD := by
  unfold cell deadGrid
  simp only [List.getD_eq_getElem?_getD, List.getElem?_replicate]
  by_cases hi : i < H
  · by_cases hj : j < W <;> simp [hi, hj]
  · simp [hi]

/-- With `randomize` false the inner loop of `initCells` only takes its draws. -/
theorem initCells_inner_false (gen : Nat → Int) (i W : Nat) (cells : Grid) (k : Nat) :
    forLoop W (fun j (st : Grid × Nat) =>
        let draw := gen st.2
        if draw = 0 ∧ false = true then
          (st.1.set? i j ALIVE).map fun cells => (cells, st.2 + 1)
        else
          some (st.1, st.2 + 1))
      (cells, k) = some (cells, k + W) := by
  induction W with
  | zero => rfl
  | succ n ih =>
    unfold forLoop
    rw [ih]
    simp [Nat.add_assoc]

theorem initCells_false (H W : Nat) (gen : Nat → Int) :
    initCells H W false gen = some (deadGrid H W) := by
  have key : ∀ n, forLoop n (fun i (st : Grid × Nat) =>
      let row := List.replicate W DEAD
      let cells := st.1 ++ [row]
      forLoop W (fun j (st : Grid × Nat) =>
          let draw := gen st.2
          if draw = 0 ∧ false = true then
            (st.1.set? i j ALIVE).map fun cells => (cells, st.2 + 1)
          else
            some (st.1, st.2 + 1))
        (cells, st.2))
      ([], 0) = some (deadGrid n W, n * W) := by
    intro n
    induction n with
    | zero => simp [forLoop, deadGrid]
    | succ n ih =>
      unfold forLoop
      rw [ih]
      simp only [Option.some_bind, initCells_inner_false]
      simp [deadGrid, List.replicate_succ', Nat.succ_mul]
  unfold initCells
  rw [key H]
  rfl

/-! ## Drawing a well-sized grid -/

theorem drawGridFromCells_eq {H W : Nat} {cells : Grid} (h : WellSized H W cells) :
    drawGridFromCells H W cells = some () := by
  have inner : ∀ row, row < H →
      forLoop W (fun col (u : Unit) => (cells.at? row col).map fun _ => u) () = some () := by
    intro row hrow
    obtain ⟨t, ht, -⟩ := forLoop_inv (fun _ (_ : Unit) => True) W
      (fun col (u : Unit) => (cells.at? row col).map fun _ => u) () trivial
      (fun col t hcol _ => ⟨t, by simp only [at?_nat h hrow hcol]; rfl, trivial⟩)
    exact ht
  obtain ⟨t, ht, -⟩ := forLoop_inv (fun _ (_ : Unit) => True) H
    (fun row (u : Unit) =>
      forLoop W (fun col (u : Unit) => (cells.at? row col).map fun _ => u) u) () trivial
    (fun row t hrow _ => ⟨(), inner row hrow, trivial⟩)
  exact ht

/-! ## The key handlers in closed form -/

theorem handleEvent_space (H W : Nat) (gen : Nat → Int) (s : Session) :
    handleEvent H W gen s (.KeyReleased .Space) =
      some { s with
        isPlaying := !s.isPlaying
        currentFramerate := if s.isPlaying then DRAWING_FRAMERATE else PLAYING_FRAMERATE
        savedCells := if !s.isPlaying && s.saveOnStart then s.cells else s.savedCells
        saveOnStart := if !s.isPlaying && s.saveOnStart then false else s.saveOnStart } := by
  obtain ⟨cells, prev, saved, playing, flag, lh, rh, so, fr, wo⟩ := s
  cases playing <;> cases flag <;> simp [handleEvent]

theorem handleEvent_right (H W : Nat) (gen : Nat → Int) (s : Session) :
    handleEvent H W gen s (.KeyPressed .Right) =
      some { s with
        stepOne := true
        savedCells := if s.saveOnStart then s.cells else s.savedCells
        saveOnStart := false } := by
  obtain ⟨cells, prev, saved, playing, flag, lh, rh, so, fr, wo⟩ := s
  cases flag <;> simp [handleEvent]

theorem handleEvent_left (H W : Nat) (gen : Nat → Int) (s : Session) :
    handleEvent H W gen s (.KeyPressed .Left) =
      some { s with
        cells := s.savedCells
        saveOnStart := if s.isPlaying then s.saveOnStart else true } := by
  obtain ⟨cells, prev, saved, playing, flag, lh, rh, so, fr, wo⟩ := s
  cases playing <;> simp [handleEvent]

theorem handleEvent_backspace (H W : Nat) (gen : Nat → Int) (s : Session) :
    handleEvent H W gen s (.KeyReleased .Backspace) =
      some { s with cells := deadGrid H W, saveOnStart := true } := by
  simp [handleEvent, initCells_false]

/-- A left or right press while PAUSED at a position whose indices are in range. -/
theorem handleEvent_press (H W : Nat) (gen : Nat → Int) (s : Session) (x y : Int)
    (hp : s.isPlaying = false) (hw : WellSized H W s.cells)
    (hr0 : 0 ≤ cellIndex y) (hr : cellIndex y < H) (hc0 : 0 ≤ cellIndex x)
    (hc : cellIndex x < W) :
    handleEvent H W gen s (.MouseButtonPressed .Left x y) =
        some { s with
          cells := setCell s.cells (cellIndex y).toNat (cellIndex x).toNat ALIVE
          leftMouseButtonHeld := true } ∧
      handleEvent H W gen s (.MouseButtonPressed .Right x y) =
        some { s with
          cells := setCell s.cells (cellIndex y).toNat (cellIndex x).toNat DEAD
          rightMouseButtonHeld := true } := by
  have hset := fun v => set?_eq_setCell hw hr0 hr hc0 hc v
  constructor <;> simp [handleEvent, hp, hset]

/-! ## Writes outside the grid -/

theorem set?_eq_none {H W : Nat} {g : Grid} (h : WellSized H W g) {r c : Int}
    (hout : ¬(0 ≤ r ∧ r < H ∧ 0 ≤ c ∧ c < W)) (v : Bool) : g.set? r c v = none := by
  unfold Grid.set?
  by_cases hneg : r < 0 ∨ c < 0
  · rw [if_pos hneg]
  · rw [if_neg hneg]
    by_cases hr : r.toNat < H
    · have hlen := h.row_length hr
      have hr2 : r.toNat < g.length := by rw [h.1]; exact hr
      rw [List.getD_eq_getElem g [] hr2] at hlen
      rw [List.getElem?_eq_getElem hr2]
      simp only []
      rw [if_neg (by omega)]
    · have : g[r.toNat]? = none := by
        apply List.getElem?_eq_none; rw [h.1]; omega
      rw [this]

theorem handleEvent_moved_left (H W : Nat) (gen : Nat → Int) (s : Session) (x y : Int)
    (hp : s.isPlaying = false) (hl : s.leftMouseButtonHeld = true) :
    handleEvent H W gen s (.MouseMoved x y) =
      if cellIndex y < H ∧ cellIndex x < W then
        (s.cells.set? (cellIndex y) (cellIndex x) ALIVE).map fun c => { s with cells := c }
      else some s := by
  simp [handleEvent, hp, hl]

/-! ## The pixel-to-cell index -/

/-- The index the handlers compute is the quotient truncated toward zero. -/
theorem cellIndex_eq_tdiv (p : Int) : cellIndex p = p.tdiv GRID_SIZE := by
  unfold cellIndex
  rw [Int.tmod_def, show p - (p - GRID_SIZE * p.tdiv GRID_SIZE) = GRID_SIZE * p.tdiv GRID_SIZE by ring]
  exact Int.mul_tdiv_cancel_left _ (by decide)

/-! ## The initializer in general -/

theorem drawnGrid_wellSized (H W : Nat) (randomize : Bool) (gen : Nat → Int) :
    WellSized H W (drawnGrid H W randomize gen) := by
  refine ⟨by simp [drawnGrid], ?_⟩
  intro row hrow
  simp only [drawnGrid, List.mem_map] at hrow
  obtain ⟨i, -, rfl⟩ := hrow
  simp

theorem cell_drawnGrid {H W : Nat} (randomize : Bool) (gen : Nat → Int) {i j : Nat}
    (hi : i < H) (hj : j < W) :
    cell (drawnGrid H W randomize gen) i j = decide (gen (i * W + j) = 0 ∧ randomize = true) := by
  unfold cell drawnGrid
  simp [List.getD_eq_getElem?_getD, hi, hj]

/-- Cells of a grid after `push_back` of an all-DEAD row. -/
theorem cell_push_dead (g : Grid) (W a b : Nat) :
    cell (g ++ [List.replicate W DEAD]) a b = if a < g.length then cell g a b else DEAD := by
  unfold cell
  simp only [List.getD_eq_getElem?_getD]
  by_cases ha : a < g.length
  · rw [if_pos ha, List.getElem?_append_left ha]
  · rw [if_neg ha, List.getElem?_append_right (by omega)]
    by_cases ha2 : a - g.length = 0
    · rw [ha2]
      simp only [List.getElem?_cons_zero, Option.getD_some, List.getElem?_replicate]
      split_ifs <;> rfl
    · obtain ⟨m, hm⟩ := Nat.exists_eq_succ_of_ne_zero ha2
      rw [hm]
      simp

theorem wellSized_push {n W : Nat} {g : Grid} (h : WellSized n W g) :
    WellSized (n + 1) W (g ++ [List.replicate W DEAD]) := by
  refine ⟨by simp [h.1], ?_⟩
  intro row hrow
  rw [List.mem_append] at hrow
  rcases hrow with hrow | hrow
  · exact h.2 row hrow
  · rw [List.mem_singleton] at hrow
    rw [hrow, List.length_replicate]

/-- The inner loop of `initCells` on the freshly pushed row `i`. -/
theorem initCells_row (W : Nat) (randomize : Bool) (gen : Nat → Int) (i : Nat) (g : Grid)
    (hg : WellSized i W g) :
    ∃ t : Grid,
      forLoop W (fun j (st : Grid × Nat) =>
          let draw := gen st.2
          if draw = 0 ∧ randomize = true then
            (st.1.set? i j ALIVE).map fun cells => (cells, st.2 + 1)
          else
            some (st.1, st.2 + 1))
        (g ++ [List.replicate W DEAD], i * W) = some (t, i * W + W) ∧
      WellSized (i + 1) W t ∧
      ∀ a b, a < i + 1 → b < W →
        cell t a b = if a = i then decide (gen (i * W + b) = 0 ∧ randomize = true)
          else cell g a b := by
  have key := forLoop_inv
    (fun j (st : Grid × Nat) => WellSized (i + 1) W st.1 ∧ st.2 = i * W + j ∧
      ∀ a b, a < i + 1 → b < W →
        cell st.1 a b =
          if a = i then (if b < j then decide (gen (i * W + b) = 0 ∧ randomize = true) else DEAD)
          else cell g a b)
    W
    (fun j (st : Grid × Nat) =>
      let draw := gen st.2
      if draw = 0 ∧ randomize = true then
        (st.1.set? i j ALIVE).map fun cells => (cells, st.2 + 1)
      else
        some (st.1, st.2 + 1))
    (g ++ [List.replicate W DEAD], i * W)
    ⟨wellSized_push hg, rfl, by
      intro a b ha hb
      rw [cell_push_dead, hg.1]
      by_cases h : a = i
      · rw [if_pos h, if_neg (by omega), if_neg (by omega)]
      · rw [if_neg h, if_pos (by omega)]⟩
    (by
      rintro j ⟨c, k⟩ hj ⟨hw, hk, hcells⟩
      simp only at hw hk hcells
      subst hk
      by_cases hd : gen (i * W + j) = 0 ∧ randomize = true
      · refine ⟨(setCell c i j ALIVE, i * W + j + 1), ?_, setCell_wellSized hw _ _ _, rfl, ?_⟩
        · simp only [if_pos hd, set?_nat hw (Nat.lt_succ_self i) hj, Option.map_some']
        · intro a b ha hb
          simp only
          rw [cell_setCell hw (Nat.lt_succ_self i) hj, hcells a b ha hb]
          by_cases hab : a = i ∧ b = j
          · obtain ⟨rfl, rfl⟩ := hab
            rw [if_pos ⟨rfl, rfl⟩, if_pos rfl, if_pos (Nat.lt_succ_self b)]
            simp [hd, ALIVE]
          · rw [if_neg hab]
            by_cases h : a = i
            · rw [if_pos h, if_pos h]
              have hbj : b ≠ j := fun hb2 => hab ⟨h, hb2⟩
              by_cases hlt : b < j
              · rw [if_pos hlt, if_pos (by omega)]
              · rw [if_neg hlt, if_neg (by omega)]
            · rw [if_neg h, if_neg h]
      · refine ⟨(c, i * W + j + 1), ?_, hw, rfl, ?_⟩
        · simp only [if_neg hd]
        · intro a b ha hb
          simp only
          rw [hcells a b ha hb]
          by_cases h : a = i
          · rw [if_pos h, if_pos h]
            by_cases hlt : b < j
            · rw [if_pos hlt, if_pos (by omega)]
            · rw [if_neg hlt]
              by_cases hbj : b = j
              · subst hbj
                rw [if_pos (Nat.lt_succ_self b)]
                simp [hd, DEAD]
              · rw [if_neg (by omega)]
          · rw [if_neg h, if_neg h])
  obtain ⟨⟨t, k⟩, ht, hw, hk, hcells⟩ := key
  simp only at hw hk hcells
  subst hk
  refine ⟨t, ht, hw, ?_⟩
  intro a b ha hb
  rw [hcells a b ha hb]
  by_cases h : a = i
  · rw [if_pos h, if_pos h, if_pos hb]
  · rw [if_neg h, if_neg h]

/-- `initCells` is defined for every stream of draws and returns `drawnGrid`. -/
theorem initCells_eq (H W : Nat) (randomize : Bool) (gen : Nat → Int) :
    initCells H W randomize gen = some (drawnGrid H W randomize gen) := by
  have key := forLoop_inv
    (fun i (st : Grid × Nat) => WellSized i W st.1 ∧ st.2 = i * W ∧
      ∀ a b, a < i → b < W →
        cell st.1 a b = decide (gen (a * W + b) = 0 ∧ randomize = true))
    H
    (fun i (st : Grid × Nat) =>
      let row := List.replicate W DEAD
      let cells := st.1 ++ [row]
      forLoop W (fun j (st : Grid × Nat) =>
          let draw := gen st.2
          if draw = 0 ∧ randomize = true then
            (st.1.set? i j ALIVE).map fun cells => (cells, st.2 + 1)
          else
            some (st.1, st.2 + 1))
        (cells, st.2))
    (([] : Grid), 0)
    ⟨⟨rfl, by intro row hrow; simp at hrow⟩, by simp, by intro a b ha; omega⟩
    (by
      rintro i ⟨g, k⟩ hi ⟨hw, hk, hcells⟩
      simp only at hw hk hcells
      subst hk
      obtain ⟨t, ht, hwt, hct⟩ := initCells_row W randomize gen i g hw
      refine ⟨(t, i * W + W), ht, hwt, by simp only; rw [Nat.succ_mul], ?_⟩
      intro a b ha hb
      simp only
      rw [hct a b ha hb]
      by_cases h : a = i
      · rw [if_pos h, h]
      · rw [if_neg h, hcells a b (by omega) hb])
  obtain ⟨⟨t, k⟩, ht, hw, -, hcells⟩ := key
  simp only at hw hcells
  have : t = drawnGrid H W randomize gen := by
    apply grid_ext hw (drawnGrid_wellSized H W randomize gen)
    intro a b ha hb
    rw [hcells a b ha hb, cell_drawnGrid randomize gen ha hb]
  subst this
  unfold initCells
  rw [ht]
  rfl

/-! ## The size of the buffers is invariant -/

theorem set?_wellSized {H W : Nat} {g g' : Grid} (h : WellSized H W g) {r c : Int} {v : Bool}
    (hset : g.set? r c v = some g') : WellSized H W g' := by
  by_cases hin : 0 ≤ r ∧ r < H ∧ 0 ≤ c ∧ c < W
  · rw [set?_eq_setCell h hin.1 hin.2.1 hin.2.2.1 hin.2.2.2] at hset
    cases hset
    exact setCell_wellSized h _ _ _
  · rw [set?_eq_none h hin] at hset
    cases hset

theorem handleEvent_enter (H W : Nat) (gen : Nat → Int) (s : Session) :
    handleEvent H W gen s (.KeyReleased .Enter) =
      some { s with cells := drawnGrid H W true gen } := by
  simp [handleEvent, initCells_eq]

theorem initialSession_eq (H W : Nat) (gen : Nat → Int) :
    initialSession H W gen =
      some { cells := drawnGrid H W true gen, previousCells := drawnGrid H W true gen,
             savedCells := drawnGrid H W true gen, isPlaying := true, saveOnStart := false,
             leftMouseButtonHeld := false, rightMouseButtonHeld := false, stepOne := false,
             currentFramerate := PLAYING_FRAMERATE, windowOpen := true } := by
  simp [initialSession, initCells_eq]

theorem handleEvent_sized {H W : Nat} {gen : Nat → Int} {s s' : Session} {e : Event}
    (hs : SizedSession H W s) (h : handleEvent H W gen s e = some s') :
    SizedSession H W s' := by
  obtain ⟨hc, hp, hv⟩ := hs
  cases e with
  | Closed => cases h; exact ⟨hc, hp, hv⟩
  | KeyPressed sc =>
    cases sc
    case Right =>
      rw [handleEvent_right] at h; cases h
      exact ⟨hc, hp, by dsimp only; split_ifs <;> assumption⟩
    case Left =>
      rw [handleEvent_left] at h; cases h
      exact ⟨hv, hp, hv⟩
    all_goals (cases h; exact ⟨hc, hp, hv⟩)
  | KeyReleased sc =>
    cases sc
    case Space =>
      rw [handleEvent_space] at h; cases h
      exact ⟨hc, hp, by dsimp only; split_ifs <;> assumption⟩
    case Backspace =>
      rw [handleEvent_backspace] at h; cases h
      exact ⟨deadGrid_wellSized H W, hp, hv⟩
    case Enter =>
      rw [handleEvent_enter] at h; cases h
      exact ⟨drawnGrid_wellSized H W true gen, hp, hv⟩
    all_goals (cases h; exact ⟨hc, hp, hv⟩)
  | MouseButtonPressed button x y =>
    cases button
    case Left =>
      simp only [handleEvent] at h
      split_ifs at h
      · rw [Option.map_eq_some'] at h
        obtain ⟨c, hset, rfl⟩ := h
        exact ⟨set?_wellSized hc hset, hp, hv⟩
      · cases h; exact ⟨hc, hp, hv⟩
    case Right =>
      simp only [handleEvent] at h
      split_ifs at h
      · rw [Option.map_eq_some'] at h
        obtain ⟨c, hset, rfl⟩ := h
        exact ⟨set?_wellSized hc hset, hp, hv⟩
      · cases h; exact ⟨hc, hp, hv⟩
    all_goals (cases h; exact ⟨hc, hp, hv⟩)
  | MouseButtonReleased button x y =>
    cases button <;> (cases h; exact ⟨hc, hp, hv⟩)
  | MouseMoved x y =>
    simp only [handleEvent] at h
    split_ifs at h
    all_goals first
      | (cases h; exact ⟨hc, hp, hv⟩)
      | (rw [Option.map_eq_some'] at h
         obtain ⟨c, hset, rfl⟩ := h
         exact ⟨set?_wellSized hc hset, hp, hv⟩)
  | Other => cases h; exact ⟨hc, hp, hv⟩

theorem pollEvents_sized {H W : Nat} (events : List (Event × (Nat → Int))) {s s' : Session}
    (hs : SizedSession H W s) (h : pollEvents H W events s = some s') :
    SizedSession H W s' := by
  induction events generalizing s with
  | nil => cases h; exact hs
  | cons p rest ih =>
    obtain ⟨e, gen⟩ := p
    unfold pollEvents at h
    split_ifs at h
    · rw [Option.bind_eq_some] at h
      obtain ⟨s1, h1, h2⟩ := h
      exact ih (handleEvent_sized hs h1) h2
    · cases h; exact hs

/-- After the events of a pass have been handled, the rest of the pass (drawing and the
advance) is always defined on well-sized buffers. -/
theorem tick_of_pollEvents {H W : Nat} (events : List (Event × (Nat → Int))) {s s1 : Session}
    (hs : SizedSession H W s) (h : pollEvents H W events { s with stepOne := false } = some s1) :
    tick H W events s =
      some (if s1.isPlaying || s1.stepOne then
        { s1 with cells := lifeStep H W s1.cells, previousCells := s1.cells } else s1) ∧
    SizedSession H W s1 := by
  have hs1 : SizedSession H W s1 := pollEvents_sized events (s := { s with stepOne := false }) hs h
  refine ⟨?_, hs1⟩
  unfold tick
  rw [h, Option.some_bind, drawGridFromCells_eq hs1.1, Option.some_bind,
    updateCells_eq hs1.1 hs1.2.1]
  split_ifs <;> rfl

theorem tick_sized {H W : Nat} (events : List (Event × (Nat → Int))) {s s' : Session}
    (hs : SizedSession H W s) (h : tick H W events s = some s') : SizedSession H W s' := by
  cases hp : pollEvents H W events { s with stepOne := false } with
  | none => simp [tick, hp] at h
  | some s1 =>
    obtain ⟨ht, hs1⟩ := tick_of_pollEvents events hs hp
    rw [ht] at h
    cases h
    split_ifs
    · exact ⟨lifeStep_wellSized H W _, hs1.1, hs1.2.2⟩
    · exact hs1

theorem runLoop_sized {H W : Nat} (passes : List (List (Event × (Nat → Int)))) {s s' : Session}
    (hs : SizedSession H W s) (h : runLoop H W passes s = some s') : SizedSession H W s' := by
  induction passes generalizing s with
  | nil => cases h; exact hs
  | cons events rest ih =>
    unfold runLoop at h
    split_ifs at h
    · rw [Option.bind_eq_some] at h
      obtain ⟨s1, h1, h2⟩ := h
      exact ih (tick_sized events hs h1) h2
    · cases h; exact hs

theorem mainAfter_sized {H W : Nat} {gen : Nat → Int}
    {passes : List (List (Event × (Nat → Int)))} {s : Session}
    (h : mainAfter H W gen passes = some s) : SizedSession H W s := by
  unfold mainAfter at h
  rw [initialSession_eq, Option.some_bind] at h
  exact runLoop_sized passes
    ⟨drawnGrid_wellSized H W true gen, drawnGrid_wellSized H W true gen,
      drawnGrid_wellSized H W true gen⟩ h

/-! ## Events with in-range indices are always handled -/

theorem handleEvent_defined {H W : Nat} (gen : Nat → Int) {s : Session} {e : Event}
    (hs : SizedSession H W s) (he : e.inRange H W = true) :
    ∃ s', handleEvent H W gen s e = some s' := by
  cases e with
  | Closed => exact ⟨_, rfl⟩
  | KeyPressed sc =>
    cases sc
    case Right => exact ⟨_, handleEvent_right H W gen s⟩
    case Left => exact ⟨_, handleEvent_left H W gen s⟩
    all_goals exact ⟨_, rfl⟩
  | KeyReleased sc =>
    cases sc
    case Space => exact ⟨_, handleEvent_space H W gen s⟩
    case Backspace => exact ⟨_, handleEvent_backspace H W gen s⟩
    case Enter => exact ⟨_, handleEvent_enter H W gen s⟩
    all_goals exact ⟨_, rfl⟩
  | MouseButtonPressed button x y =>
    cases button
    case Left =>
      simp only [Event.inRange, decide_eq_true_eq] at he
      have hset := set?_eq_setCell hs.1 he.1 he.2.1 he.2.2.1 he.2.2.2 ALIVE
      simp only [handleEvent, hset]
      split_ifs <;> exact ⟨_, rfl⟩
    case Right =>
      simp only [Event.inRange, decide_eq_true_eq] at he
      have hset := set?_eq_setCell hs.1 he.1 he.2.1 he.2.2.1 he.2.2.2 DEAD
      simp only [handleEvent, hset]
      split_ifs <;> exact ⟨_, rfl⟩
    all_goals exact ⟨_, rfl⟩
  | MouseButtonReleased button x y => cases button <;> exact ⟨_, rfl⟩
  | MouseMoved x y =>
    simp only [Event.inRange, decide_eq_true_eq] at he
    have hset := fun v => set?_eq_setCell hs.1 he.1 he.2.1 he.2.2.1 he.2.2.2 v
    simp only [handleEvent, hset]
    split_ifs <;> exact ⟨_, rfl⟩
  | Other => exact ⟨_, rfl⟩

theorem pollEvents_defined {H W : Nat} (events : List (Event × (Nat → Int))) {s : Session}
    (hs : SizedSession H W s) (he : ∀ p ∈ events, p.1.inRange H W = true) :
    ∃ s', pollEvents H W events s = some s' := by
  induction events generalizing s with
  | nil => exact ⟨s, rfl⟩
  | cons p rest ih =>
    obtain ⟨e, gen⟩ := p
    unfold pollEvents
    split_ifs
    · obtain ⟨s1, h1⟩ := handleEvent_defined gen hs (he (e, gen) (List.mem_cons_self _ _))
      rw [h1, Option.some_bind]
      exact ih (handleEvent_sized hs h1) (fun p hp => he p (List.mem_cons_of_mem _ hp))
    · exact ⟨s, rfl⟩

theorem tick_defined {H W : Nat} (events : List (Event × (Nat → Int))) {s : Session}
    (hs : SizedSession H W s) (he : ∀ p ∈ events, p.1.inRange H W = true) :
    ∃ s', tick H W events s = some s' := by
  obtain ⟨s1, h1⟩ := pollEvents_defined events (s := { s with stepOne := false }) hs he
  exact ⟨_, (tick_of_pollEvents events hs h1).1⟩

theorem runLoop_defined {H W : Nat} (passes : List (List (Event × (Nat → Int)))) {s : Session}
    (hs : SizedSession H W s)
    (he : ∀ events ∈ passes, ∀ p ∈ events, p.1.inRange H W = true) :
    ∃ s', runLoop H W passes s = some s' := by
  induction passes generalizing s with
  | nil => exact ⟨s, rfl⟩
  | cons events rest ih =>
    unfold runLoop
    split_ifs
    · obtain ⟨s1, h1⟩ := tick_defined events hs (he events (List.mem_cons_self _ _))
      rw [h1, Option.some_bind]
      exact ih (tick_sized events hs h1) (fun ev hev => he ev (List.mem_cons_of_mem _ hev))
    · exact ⟨s, rfl⟩

/-! ## A pass in which only the Right key is pressed -/

theorem pollEvents_rights (H W : Nat) (events : List (Event × (Nat → Int))) (s : Session)
    (hev : ∀ p ∈ events, p.1 = .KeyPressed .Right) :
    ∃ s' : Session, pollEvents H W events s = some s' ∧ s'.cells = s.cells ∧
      s'.previousCells = s.previousCells ∧ s'.isPlaying = s.isPlaying := by
  induction events generalizing s with
  | nil => exact ⟨s, rfl, rfl, rfl, rfl⟩
  | cons p rest ih =>
    obtain ⟨e, gen⟩ := p
    have he : e = .KeyPressed .Right := hev (e, gen) (List.mem_cons_self _ _)
    subst he
    unfold pollEvents
    split_ifs
    · rw [handleEvent_right, Option.some_bind]
      obtain ⟨s', h1, h2, h3, h4⟩ := ih
        { s with stepOne := true
                 savedCells := if s.saveOnStart then s.cells else s.savedCells
                 saveOnStart := false }
        (fun p hp => hev p (List.mem_cons_of_mem _ hp))
      exact ⟨s', h1, h2, h3, h4⟩
    · exact ⟨s, rfl, rfl, rfl, rfl⟩

/-! ## The blinker -/

/-- Next state of a cell when the ALIVE cells are one row times a set of columns. -/
theorem hline_bools (rU ri rD cL cj cR : Bool) (h1 : (rU && ri) = false)
    (h2 : (ri && rD) = false) (h3 : (rU && rD) = false) :
    lifeRule (ri && cj)
      (count8 (rU && cL) (rU && cj) (rU && cR) (ri && cL) (ri && cR)
        (rD && cL) (rD && cj) (rD && cR)) = ((rU || ri || rD) && (cL && cj && cR)) := by
  revert rU ri rD cL cj cR
  decide

/-- Next state of a cell when the ALIVE cells are a set of rows times one column. -/
theorem vline_bools (rU ri rD cL cj cR : Bool) (h1 : (cL && cj) = false)
    (h2 : (cj && cR) = false) (h3 : (cL && cR) = false) :
    lifeRule (ri && cj)
      (count8 (rU && cL) (rU && cj) (rU && cR) (ri && cL) (ri && cR)
        (rD && cL) (rD && cj) (rD && cR)) = ((rU && ri && rD) && (cL || cj || cR)) := by
  revert rU ri rD cL cj cR
  decide

/-- On a torus of at least 3 lines, of a line and its two neighbours at most one is `r`. -/
theorem single_axis {H r i : Nat} (hH : 3 ≤ H) (hi : i < H) :
    (decide (up H i = r) && decide (i = r)) = false ∧
    (decide (i = r) && decide (down H i = r)) = false ∧
    (decide (up H i = r) && decide (down H i = r)) = false := by
  have hu := up_eq hi
  have hd := down_eq hi
  generalize up H i = u at hu ⊢
  generalize down H i = d at hd ⊢
  simp only [Bool.and_eq_false_imp, decide_eq_true_eq, decide_eq_false_iff_not]
  split_ifs at hu hd <;> omega

/-- The line before, the line itself or the line after is `r` exactly for the three
lines around `r`. -/
theorem around_axis {H r i : Nat} (hr1 : 1 ≤ r) (hr : r + 1 < H) (hi : i < H) :
    (up H i = r ∨ i = r ∨ down H i = r) ↔ (i = r - 1 ∨ i = r ∨ i = r + 1) := by
  have hu := up_eq hi
  have hd := down_eq hi
  generalize up H i = u at hu ⊢
  generalize down H i = d at hd ⊢
  split_ifs at hu hd <;> omega

/-- A line and both its neighbours are among the three lines around `r` exactly when the
line is `r`, on a torus of at least 5 lines. -/
theorem triple_axis {H r i : Nat} (hH : 5 ≤ H) (hr1 : 1 ≤ r) (hr : r + 1 < H) (hi : i < H) :
    ((up H i = r - 1 ∨ up H i = r ∨ up H i = r + 1) ∧ (i = r - 1 ∨ i = r ∨ i = r + 1) ∧
      (down H i = r - 1 ∨ down H i = r ∨ down H i = r + 1)) ↔ i = r := by
  have hu := up_eq hi
  have hd := down_eq hi
  generalize up H i = u at hu ⊢
  generalize down H i = d at hd ⊢
  split_ifs at hu hd <;> omega

theorem decide_or3 {p q r : Prop} [Decidable p] [Decidable q] [Decidable r] :
    (decide p || decide q || decide r) = decide (p ∨ q ∨ r) := by
  by_cases hp : p <;> by_cases hq : q <;> by_cases hr : r <;> simp [hp, hq, hr]

theorem decide_and3 {p q r : Prop} [Decidable p] [Decidable q] [Decidable r] :
    (decide p && decide q && decide r) = decide (p ∧ q ∧ r) := by
  by_cases hp : p <;> by_cases hq : q <;> by_cases hr : r <;> simp [hp, hq, hr]

/-- The next generation of a horizontal line of three is the vertical line of three
through its middle. -/
theorem lifeStep_hline {H W : Nat} (hH : 5 ≤ H) (hW : 5 ≤ W) (g : Grid) (r c : Nat)
    (hr1 : 1 ≤ r) (hr : r + 1 < H) (hc1 : 1 ≤ c) (hc : c + 1 < W)
    (hline : ∀ i j, i < H → j < W →
      (cell g i j = ALIVE ↔ i = r ∧ (j = c - 1 ∨ j = c ∨ j = c + 1)))
    {i j : Nat} (hi : i < H) (hj : j < W) :
    cell (lifeStep H W g) i j = decide ((i = r - 1 ∨ i = r ∨ i = r + 1) ∧ j = c) := by
  have hsep : ∀ x y, x < H → y < W →
      cell g x y = (decide (x = r) && decide (y = c - 1 ∨ y = c ∨ y = c + 1)) := by
    intro x y hx hy
    have := hline x y hx hy
    rw [Bool.eq_iff_iff]
    simpa [ALIVE] using this
  obtain ⟨h1, h2, h3⟩ := single_axis (r := r) (by omega : 3 ≤ H) hi
  rw [cell_lifeStep g hi hj, hsep i j hi hj,
    aliveNeighbours_separable g (fun x => decide (x = r))
      (fun y => decide (y = c - 1 ∨ y = c ∨ y = c + 1)) hsep hi hj,
    hline_bools _ _ _ _ _ _ h1 h2 h3, decide_or3, decide_and3, Bool.eq_iff_iff]
  simp only [Bool.and_eq_true, decide_eq_true_eq]
  rw [around_axis hr1 hr hi, triple_axis hW hc1 hc hj]

/-- The next generation of a vertical line of three is the horizontal line of three
through its middle. -/
theorem lifeStep_vline {H W : Nat} (hH : 5 ≤ H) (hW : 5 ≤ W) (g : Grid) (r c : Nat)
    (hr1 : 1 ≤ r) (hr : r + 1 < H) (hc1 : 1 ≤ c) (hc : c + 1 < W)
    (hline : ∀ i j, i < H → j < W →
      (cell g i j = ALIVE ↔ (i = r - 1 ∨ i = r ∨ i = r + 1) ∧ j = c))
    {i j : Nat} (hi : i < H) (hj : j < W) :
    cell (lifeStep H W g) i j = decide (i = r ∧ (j = c - 1 ∨ j = c ∨ j = c + 1)) := by
  have hsep : ∀ x y, x < H → y < W →
      cell g x y = (decide (x = r - 1 ∨ x = r ∨ x = r + 1) && decide (y = c)) := by
    intro x y hx hy
    have := hline x y hx hy
    rw [Bool.eq_iff_iff]
    simpa [ALIVE] using this
  obtain ⟨h1, h2, h3⟩ := single_axis (r := c) (by omega : 3 ≤ W) hj
  rw [cell_lifeStep g hi hj, hsep i j hi hj,
    aliveNeighbours_separable g (fun x => decide (x = r - 1 ∨ x = r ∨ x = r + 1))
      (fun y => decide (y = c)) hsep hi hj,
    vline_bools _ _ _ _ _ _ h1 h2 h3, decide_or3, decide_and3, Bool.eq_iff_iff]
  simp only [Bool.and_eq_true, decide_eq_true_eq]
  rw [around_axis hc1 hc hj, triple_axis hH hr1 hr hi]

/-! ## Across the seam of the torus -/

/-- The eight values counted for cell `(0, 0)`. -/
theorem aliveNeighbours_origin {H W : Nat} (hH : 2 ≤ H) (hW : 2 ≤ W) (g : Grid) :
    aliveNeighbours H W g 0 0 =
      count8 (cell g (H - 1) (W - 1)) (cell g (H - 1) 0) (cell g (H - 1) 1)
        (cell g 0 (W - 1)) (cell g 0 1) (cell g 1 (W - 1)) (cell g 1 0) (cell g 1 1) := by
  have hi : 0 < H := by omega
  have hj : 0 < W := by omega
  have hU : up H 0 = H - 1 := by rw [up_eq hi, if_pos rfl]
  have hL : up W 0 = W - 1 := by rw [up_eq hj, if_pos rfl]
  have hD : down H 0 = 1 := by rw [down_eq hi, if_neg (by omega)]
  have hR : down W 0 = 1 := by rw [down_eq hj, if_neg (by omega)]
  rw [aliveNeighbours_eq_count8 g hi hj, hU, hL, hD, hR]

/-- The eight values counted for cell `(H - 1, W - 1)`. -/
theorem aliveNeighbours_corner {H W : Nat} (hH : 2 ≤ H) (hW : 2 ≤ W) (g : Grid) :
    aliveNeighbours H W g (H - 1) (W - 1) =
      count8 (cell g (H - 2) (W - 2)) (cell g (H - 2) (W - 1)) (cell g (H - 2) 0)
        (cell g (H - 1) (W - 2)) (cell g (H - 1) 0)
        (cell g 0 (W - 2)) (cell g 0 (W - 1)) (cell g 0 0) := by
  have hi : H - 1 < H := by omega
  have hj : W - 1 < W := by omega
  have hU : up H (H - 1) = H - 2 := by rw [up_eq hi, if_neg (by omega)]; omega
  have hL : up W (W - 1) = W - 2 := by rw [up_eq hj, if_neg (by omega)]; omega
  have hD : down H (H - 1) = 0 := by rw [down_eq hi, if_pos (by omega)]
  have hR : down W (W - 1) = 0 := by rw [down_eq hj, if_pos (by omega)]
  rw [aliveNeighbours_eq_count8 g hi hj, hU, hL, hD, hR]

/-- Cells of a grid after one cell has been set. -/
theorem cell_setCell_same {H W : Nat} {g : Grid} (h : WellSized H W g) {i j : Nat}
    (hi : i < H) (hj : j < W) (v : Bool) : cell (setCell g i j v) i j = v := by
  rw [cell_setCell h hi hj, if_pos ⟨rfl, rfl⟩]

theorem cell_setCell_other {H W : Nat} {g : Grid} (h : WellSized H W g) {i j : Nat}
    (hi : i < H) (hj : j < W) (v : Bool) (a b : Nat) (hab : ¬(a = i ∧ b = j)) :
    cell (setCell g i j v) a b = cell g a b := by
  rw [cell_setCell h hi hj, if_neg hab]

theorem count8_first (b2 b3 b4 b5 b6 b7 b8 : Bool) :
    count8 true b2 b3 b4 b5 b6 b7 b8 = count8 false b2 b3 b4 b5 b6 b7 b8 + 1 := by
  simp only [count8, Bool.toNat_true, Bool.toNat_false]
  omega

theorem count8_last (b1 b2 b3 b4 b5 b6 b7 : Bool) :
    count8 b1 b2 b3 b4 b5 b6 b7 true = count8 b1 b2 b3 b4 b5 b6 b7 false + 1 := by
  simp only [count8, Bool.toNat_true, Bool.toNat_false]

/-! ## The count `updateCells` computes -/

/-- The inner loop body of `updateCells` is the eight reads of `numNeighbors` followed by
the read of the cell itself and the rule. -/
theorem updateCell_eq_bind (H W : Nat) (cur : Grid) (i j : Nat) (next : Grid) :
    updateCell H W cur i j next =
      (numNeighbors H W cur i j).bind fun n =>
        (cur.at? i j).bind fun here =>
          if here = ALIVE ∧ (n = 2 ∨ n = 3) then next.set? i j ALIVE
          else if here = DEAD ∧ n = 3 then next.set? i j ALIVE
          else next.set? i j DEAD := by
  unfold updateCell numNeighbors
  simp only [Option.bind_eq_bind, Option.pure_def, Option.bind_assoc, Option.some_bind]

theorem bumps_eq_count8 (b1 b2 b3 b4 b5 b6 b7 b8 : Bool) :
    bump (bump (bump (bump (bump (bump (bump (bump 0 b1) b2) b3) b4) b5) b6) b7) b8 =
      ((count8 b1 b2 b3 b4 b5 b6 b7 b8 : Nat) : Int) := by
  revert b1 b2 b3 b4 b5 b6 b7 b8
  decide

/-- On a well-sized grid the eight reads are in range and the count is the number of
ALIVE cells among the eight wrapped positions. -/
theorem numNeighbors_eq {H W : Nat} {cur : Grid} (hc : WellSized H W cur) {i j : Nat}
    (hi : i < H) (hj : j < W) :
    numNeighbors H W cur i j =
      some ((count8 (cell cur (up H i) (up W j)) (cell cur (up H i) j)
        (cell cur (up H i) (down W j)) (cell cur i (up W j)) (cell cur i (down W j))
        (cell cur (down H i) (up W j)) (cell cur (down H i) j)
        (cell cur (down H i) (down W j)) : Nat) : Int) := by
  have hH : (0 : Int) < H := by omega
  have hW : (0 : Int) < W := by omega
  have hU0 := modulo_nonneg ((i : Int) - 1) hH
  have hU1 := modulo_lt ((i : Int) - 1) hH
  have hD0 := modulo_nonneg ((i : Int) + 1) hH
  have hD1 := modulo_lt ((i : Int) + 1) hH
  have hL0 := modulo_nonneg ((j : Int) - 1) hW
  have hL1 := modulo_lt ((j : Int) - 1) hW
  have hR0 := modulo_nonneg ((j : Int) + 1) hW
  have hR1 := modulo_lt ((j : Int) + 1) hW
  have hi0 := Int.ofNat_nonneg i
  have hj0 := Int.ofNat_nonneg j
  have hi1 : (i : Int) < H := by omega
  have hj1 : (j : Int) < W := by omega
  have eU : (modulo ((i : Int) - 1) H).toNat = up H i := by
    rw [modulo_eq_emod _ hH]; rfl
  have eD : (modulo ((i : Int) + 1) H).toNat = down H i := by
    rw [modulo_eq_emod _ hH]; rfl
  have eL : (modulo ((j : Int) - 1) W).toNat = up W j := by
    rw [modulo_eq_emod _ hW]; rfl
  have eR : (modulo ((j : Int) + 1) W).toNat = down W j := by
    rw [modulo_eq_emod _ hW]; rfl
  unfold numNeighbors
  simp only [at?_eq_cell hc hU0 hU1 hL0 hL1, at?_eq_cell hc hU0 hU1 hj0 hj1,
    at?_eq_cell hc hU0 hU1 hR0 hR1, at?_eq_cell hc hi0 hi1 hL0 hL1,
    at?_eq_cell hc hi0 hi1 hR0 hR1, at?_eq_cell hc hD0 hD1 hL0 hL1,
    at?_eq_cell hc hD0 hD1 hj0 hj1, at?_eq_cell hc hD0 hD1 hR0 hR1,
    eU, eD, eL, eR, Int.toNat_ofNat,
    Option.pure_def, Option.bind_eq_bind, Option.some_bind, bumps_eq_count8]

theorem up_zero {H : Nat} (hH : 2 ≤ H) : up H 0 = H - 1 := by
  rw [up_eq (by omega), if_pos rfl]

theorem down_zero {H : Nat} (hH : 2 ≤ H) : down H 0 = 1 := by
  rw [down_eq (by omega), if_neg (by omega)]

theorem up_last {H : Nat} (hH : 2 ≤ H) : up H (H - 1) = H - 2 := by
  rw [up_eq (by omega), if_neg (by omega)]; omega

theorem down_last {H : Nat} (hH : 2 ≤ H) : down H (H - 1) = 0 := by
  rw [down_eq (by omega), if_pos (by omega)]

/-- The count `updateCells` computes for cell `(0, 0)`. -/
theorem numNeighbors_origin {H W : Nat} (hH : 2 ≤ H) (hW : 2 ≤ W) {g : Grid}
    (hg : WellSized H W g) :
    numNeighbors H W g 0 0 =
      some ((count8 (cell g (H - 1) (W - 1)) (cell g (H - 1) 0) (cell g (H - 1) 1)
        (cell g 0 (W - 1)) (cell g 0 1) (cell g 1 (W - 1)) (cell g 1 0) (cell g 1 1) : Nat) :
        Int) := by
  rw [numNeighbors_eq hg (by omega : 0 < H) (by omega : 0 < W), up_zero hH, up_zero hW,
    down_zero hH, down_zero hW]

/-- The count `updateCells` computes for cell `(H - 1, W - 1)`. -/
theorem numNeighbors_corner {H W : Nat} (hH : 2 ≤ H) (hW : 2 ≤ W) {g : Grid}
    (hg : WellSized H W g) :
    numNeighbors H W g (H - 1) (W - 1) =
      some ((count8 (cell g (H - 2) (W - 2)) (cell g (H - 2) (W - 1)) (cell g (H - 2) 0)
        (cell g (H - 1) (W - 2)) (cell g (H - 1) 0)
        (cell g 0 (W - 2)) (cell g 0 (W - 1)) (cell g 0 0) : Nat) : Int) := by
  rw [numNeighbors_eq hg (by omega : H - 1 < H) (by omega : W - 1 < W), up_last hH,
    up_last hW, down_last hH, down_last hW]

/-! ## The claims -/

/-- C1: on well-sized buffers `updateCells` is defined, and the new `cells[i][j]` is ALIVE
exactly when the old cell is ALIVE with 2 or 3 ALIVE neighbours or DEAD with 3, and DEAD
otherwise, the neighbours being the eight positions `((i+di) mod H, (j+dj) mod W)`.
On a torus of at least 2 x 2 (so on the program's 160 x 240) a grid whose only ALIVE
cell is `(a, b)` becomes all DEAD. -/
theorem updateCells_rule (H W : Nat) (g scratch : Grid) (hg : WellSized H W g)
    (hs : WellSized H W scratch) :
    ∃ g' s' : Grid, updateCells H W g scratch = some (g', s') ∧ WellSized H W g' ∧
      (∀ i < H, ∀ j < W, cell g' i j =
        if (cell g i j = ALIVE ∧
              (aliveNeighbours H W g i j = 2 ∨ aliveNeighbours H W g i j = 3)) ∨
            (cell g i j = DEAD ∧ aliveNeighbours H W g i j = 3)
        then ALIVE else DEAD) ∧
      (2 ≤ H → 2 ≤ W → ∀ a b, (∀ i < H, ∀ j < W, (cell g i j = ALIVE ↔ i = a ∧ j = b)) →
        ∀ i < H, ∀ j < W, cell g' i j = DEAD) := by
  refine ⟨lifeStep H W g, g, updateCells_eq hg hs, lifeStep_wellSized H W g, ?_, ?_⟩
  · intro i hi j hj
    rw [cell_lifeStep g hi hj]
    unfold lifeRule
    split_ifs with h
    · simpa [ALIVE] using h
    · simpa [DEAD] using h
  · intro hH hW a b hlone i hi j hj
    exact lifeStep_lone hH hW g a b (fun x y hx hy => hlone x hx y hy) hi hj

theorem updateCells_rule_witness :
    WellSized 3 3 loneCentre ∧ WellSized 3 3 (deadGrid 3 3) ∧
      ∃ g' s' : Grid, updateCells 3 3 loneCentre (deadGrid 3 3) = some (g', s') ∧
        ∀ i < 3, ∀ j < 3, cell g' i j = DEAD := by
  refine ⟨by decide, by decide, ?_⟩
  obtain ⟨g', s', h1, _, _, h4⟩ :=
    updateCells_rule 3 3 loneCentre (deadGrid 3 3) (by decide) (by decide)
  exact ⟨g', s', h1, h4 (by decide) (by decide) 1 1 (by decide)⟩

/-- C2 (amended): from a PAUSED state, an in-range left or right press followed by a
Space release ends PLAYING with `saveOnStart` false and the grid as edited; `savedCells`
is the edited grid when `saveOnStart` was set before the edit, and is the snapshot held
before the edit, untouched, when it was not. -/
theorem edit_then_play (H W : Nat) (gen1 gen2 : Nat → Int) (s : Session) (button : Button)
    (x y : Int) (hb : button = .Left ∨ button = .Right) (hp : s.isPlaying = false)
    (hw : WellSized H W s.cells) (hrow : 0 ≤ cellIndex y ∧ cellIndex y < H)
    (hcol : 0 ≤ cellIndex x ∧ cellIndex x < W) :
    ∃ s1 s2 : Session,
      handleEvent H W gen1 s (.MouseButtonPressed button x y) = some s1 ∧
      handleEvent H W gen2 s1 (.KeyReleased .Space) = some s2 ∧
      s2.cells = s1.cells ∧ s2.isPlaying = true ∧ s2.saveOnStart = false ∧
      s2.savedCells = if s.saveOnStart then s1.cells else s.savedCells := by
  obtain ⟨hL, hR⟩ := handleEvent_press H W gen1 s x y hp hw hrow.1 hrow.2 hcol.1 hcol.2
  rcases hb with rfl | rfl
  · refine ⟨_, _, hL, handleEvent_space H W gen2 _, rfl, ?_⟩
    cases hf : s.saveOnStart <;> simp [hp, hf]
  · refine ⟨_, _, hR, handleEvent_space H W gen2 _, rfl, ?_⟩
    cases hf : s.saveOnStart <;> simp [hp, hf]

theorem edit_then_play_witness :
    pausedLone.isPlaying = false ∧ WellSized 3 3 pausedLone.cells ∧
      (0 ≤ cellIndex 0 ∧ cellIndex 0 < (3 : Nat)) ∧
      ∃ s1 s2 : Session,
        handleEvent 3 3 onesGen pausedLone (.MouseButtonPressed .Left 0 0) = some s1 ∧
        handleEvent 3 3 onesGen s1 (.KeyReleased .Space) = some s2 ∧
        s2.cells = s1.cells ∧ s2.isPlaying = true ∧ s2.saveOnStart = false ∧
        s2.savedCells = if pausedLone.saveOnStart then s1.cells else pausedLone.savedCells :=
  ⟨by decide, by decide, by decide,
    edit_then_play 3 3 onesGen onesGen pausedLone .Left 0 0 (Or.inl rfl) (by decide)
      (by decide) (by decide) (by decide)⟩

/-- C2 as stated fails: in the paused blank session of the program's size, with
`saveOnStart` false, a left press at pixel (0, 0) turns cell (0, 0) from DEAD to ALIVE,
and after the Space release `savedCells` is not the edited grid. -/
theorem snapshot_not_committed_counterexample :
    pausedBlank.isPlaying = false ∧ pausedBlank.saveOnStart = false ∧
      ∃ s1 s2 : Session,
        handleEvent GRID_HEIGHT GRID_WIDTH onesGen pausedBlank
          (.MouseButtonPressed .Left 0 0) = some s1 ∧
        cell pausedBlank.cells 0 0 = DEAD ∧ cell s1.cells 0 0 = ALIVE ∧
        handleEvent GRID_HEIGHT GRID_WIDTH onesGen s1 (.KeyReleased .Space) = some s2 ∧
        s2.savedCells ≠ s1.cells := by
  have hw : WellSized GRID_HEIGHT GRID_WIDTH pausedBlank.cells :=
    deadGrid_wellSized GRID_HEIGHT GRID_WIDTH
  have hL := (handleEvent_press GRID_HEIGHT GRID_WIDTH onesGen pausedBlank 0 0 rfl hw
    (by decide) (by decide) (by decide) (by decide)).1
  have hcell : cell (setCell pausedBlank.cells 0 0 ALIVE) 0 0 = ALIVE := by
    rw [cell_setCell hw (by decide) (by decide)]; simp
  refine ⟨rfl, rfl, _, _, hL, cell_deadGrid _ _ 0 0, hcell,
    handleEvent_space GRID_HEIGHT GRID_WIDTH onesGen _, ?_⟩
  intro h
  have h2 : cell pausedBlank.savedCells 0 0 = cell (setCell pausedBlank.cells 0 0 ALIVE) 0 0 :=
    congrArg (fun g => cell g 0 0) h
  rw [hcell] at h2
  have h3 : cell pausedBlank.savedCells 0 0 = DEAD := cell_deadGrid _ _ 0 0
  rw [h3] at h2
  exact absurd h2 (by decide)

/-- C3 (the code at two failing inputs, program size, PAUSED): after a left press at
pixel (0, 0), a move to pixel (-5, 0) with the button still held computes column -1,
passes the guard `rowIndex < GRID_HEIGHT && colIndex < GRID_WIDTH` and writes
`cells[0][-1]`, out of range; and a left press at pixel (1200, 0) computes column 240,
is not guarded at all and writes `cells[0][240]`, out of range. -/
theorem pointer_edit_out_of_range :
    (∃ s1 : Session,
      handleEvent GRID_HEIGHT GRID_WIDTH onesGen pausedBlank
        (.MouseButtonPressed .Left 0 0) = some s1 ∧
      s1.isPlaying = false ∧ s1.leftMouseButtonHeld = true ∧
      cellIndex 0 = 0 ∧ cellIndex (-5) = -1 ∧
      handleEvent GRID_HEIGHT GRID_WIDTH onesGen s1 (.MouseMoved (-5) 0) = none) ∧
    (cellIndex 1200 = (GRID_WIDTH : Int) ∧
      handleEvent GRID_HEIGHT GRID_WIDTH onesGen pausedBlank
        (.MouseButtonPressed .Left 1200 0) = none) := by
  have hw : WellSized GRID_HEIGHT GRID_WIDTH pausedBlank.cells :=
    deadGrid_wellSized GRID_HEIGHT GRID_WIDTH
  have hL := (handleEvent_press GRID_HEIGHT GRID_WIDTH onesGen pausedBlank 0 0 rfl hw
    (by decide) (by decide) (by decide) (by decide)).1
  refine ⟨⟨_, hL, rfl, rfl, by decide, by decide, ?_⟩, by decide, ?_⟩
  · rw [handleEvent_moved_left _ _ _ _ _ _ rfl rfl, if_pos (by decide),
      set?_eq_none (setCell_wellSized hw _ _ _) (by decide)]
    rfl
  · have hnone := set?_eq_none hw (r := cellIndex 0) (c := cellIndex 1200) (by decide) ALIVE
    simp only [handleEvent]
    rw [hnone]
    rfl

/-- C4: a tick of a PAUSED session in which only the Right key is pressed is defined and
ends with `cells` the next generation of the grid `c` it started with; `savedCells` is `c`
when `saveOnStart` was set and is unchanged when it was not, `saveOnStart` ends false,
and the session is still PAUSED. -/
theorem step_once_paused (H W : Nat) (gen : Nat → Int) (s : Session)
    (hp : s.isPlaying = false) (ho : s.windowOpen = true) (hc : WellSized H W s.cells)
    (hv : WellSized H W s.previousCells) :
    ∃ s' : Session, tick H W [(.KeyPressed .Right, gen)] s = some s' ∧
      s'.cells = lifeStep H W s.cells ∧
      s'.savedCells = (if s.saveOnStart then s.cells else s.savedCells) ∧
      s'.saveOnStart = false ∧ s'.isPlaying = false := by
  refine ⟨{ s with
      stepOne := true
      savedCells := if s.saveOnStart then s.cells else s.savedCells
      saveOnStart := false
      cells := lifeStep H W s.cells
      previousCells := s.cells }, ?_, rfl, rfl, rfl, hp⟩
  unfold tick pollEvents
  simp only [ho, if_true, handleEvent_right, Option.some_bind, pollEvents, Bool.or_true,
    drawGridFromCells_eq hc, updateCells_eq hc hv, Option.map_some']

theorem step_once_paused_witness :
    pausedLone.isPlaying = false ∧ pausedLone.windowOpen = true ∧
      WellSized 3 3 pausedLone.cells ∧ WellSized 3 3 pausedLone.previousCells ∧
      ∃ s' : Session, tick 3 3 [(.KeyPressed .Right, onesGen)] pausedLone = some s' ∧
        s'.cells = lifeStep 3 3 pausedLone.cells ∧
        s'.savedCells = (if pausedLone.saveOnStart then pausedLone.cells
          else pausedLone.savedCells) ∧
        s'.saveOnStart = false ∧ s'.isPlaying = false :=
  ⟨by decide, by decide, by decide, by decide,
    step_once_paused 3 3 onesGen pausedLone (by decide) (by decide) (by decide) (by decide)⟩

/-- C5: the Space release is always defined and flips `isPlaying`; when the new state is
PLAYING and `saveOnStart` was set, `savedCells` becomes the grid as it is at that moment
and `saveOnStart` becomes false; in every other case both are unchanged; `cells` is
never changed by it. -/
theorem toggle_play_effect (H W : Nat) (gen : Nat → Int) (s : Session) :
    ∃ s' : Session, handleEvent H W gen s (.KeyReleased .Space) = some s' ∧
      s'.isPlaying = (!s.isPlaying) ∧ s'.cells = s.cells ∧
      s'.savedCells = (if !s.isPlaying && s.saveOnStart then s.cells else s.savedCells) ∧
      s'.saveOnStart = (if !s.isPlaying && s.saveOnStart then false else s.saveOnStart) :=
  ⟨_, handleEvent_space H W gen s, rfl, rfl, rfl, rfl⟩

/-- C6: the Left key press is always defined; afterwards `cells` equals `savedCells`,
`savedCells` and `isPlaying` are unchanged, and `saveOnStart` is true if the session is
PAUSED and keeps its value if it is PLAYING. -/
theorem restore_effect (H W : Nat) (gen : Nat → Int) (s : Session) :
    ∃ s' : Session, handleEvent H W gen s (.KeyPressed .Left) = some s' ∧
      s'.cells = s.savedCells ∧ s'.savedCells = s.savedCells ∧
      s'.isPlaying = s.isPlaying ∧
      s'.saveOnStart = (if s.isPlaying then s.saveOnStart else true) :=
  ⟨_, handleEvent_left H W gen s, rfl, rfl, rfl, rfl⟩

/-- C7: two Left key presses in a row leave the same session, and so the same grid, as
one. -/
theorem restore_idempotent (H W : Nat) (gen1 gen2 : Nat → Int) (s : Session) :
    (handleEvent H W gen1 s (.KeyPressed .Left)).bind
        (fun s1 => handleEvent H W gen2 s1 (.KeyPressed .Left)) =
      handleEvent H W gen1 s (.KeyPressed .Left) ∧
    ∃ s1 : Session, handleEvent H W gen1 s (.KeyPressed .Left) = some s1 ∧
      handleEvent H W gen2 s1 (.KeyPressed .Left) = some s1 := by
  have h2 : handleEvent H W gen2
      { s with cells := s.savedCells,
               saveOnStart := if s.isPlaying then s.saveOnStart else true }
      (.KeyPressed .Left) =
      some { s with cells := s.savedCells,
                    saveOnStart := if s.isPlaying then s.saveOnStart else true } := by
    rw [handleEvent_left]
    obtain ⟨cells, prev, saved, playing, flag, lh, rh, so, fr, wo⟩ := s
    cases playing <;> simp
  refine ⟨?_, _, handleEvent_left H W gen1 s, h2⟩
  rw [handleEvent_left H W gen1 s, Option.some_bind, h2]

/-- C8: the Backspace release is defined whatever the draws are; afterwards `cells` is
an `H x W` grid whose every cell is DEAD, `saveOnStart` is true, and `savedCells` and
`isPlaying` are unchanged. -/
theorem clear_effect (H W : Nat) (gen : Nat → Int) (s : Session) :
    initCells H W false gen = some (deadGrid H W) ∧
    ∃ s' : Session, handleEvent H W gen s (.KeyReleased .Backspace) = some s' ∧
      WellSized H W s'.cells ∧ (∀ i j, cell s'.cells i j = DEAD) ∧
      s'.saveOnStart = true ∧ s'.savedCells = s.savedCells ∧
      s'.isPlaying = s.isPlaying :=
  ⟨initCells_false H W gen, _, handleEvent_backspace H W gen s, deadGrid_wellSized H W,
    cell_deadGrid H W, rfl, rfl, rfl⟩

/-- C9: while PLAYING every pointer event is handled without touching `cells`,
`savedCells` or `saveOnStart`; while PAUSED a left (right) press whose indices are in
range sets exactly `cells[row][col]` to ALIVE (DEAD), every other cell keeping its value,
and leaves `savedCells` and `saveOnStart` alone; a button release never touches any of
the three; and whenever a pointer event is handled, `savedCells` and `saveOnStart` are
what they were. -/
theorem pointer_events_frame (H W : Nat) (gen : Nat → Int) (s : Session) :
    (s.isPlaying = true → ∀ e : Event, e.isPointer = true →
      ∃ s' : Session, handleEvent H W gen s e = some s' ∧ s'.cells = s.cells ∧
        s'.savedCells = s.savedCells ∧ s'.saveOnStart = s.saveOnStart) ∧
    (s.isPlaying = false → WellSized H W s.cells → ∀ (button : Button) (v : Bool) (x y : Int),
      (button = .Left ∧ v = ALIVE) ∨ (button = .Right ∧ v = DEAD) →
      0 ≤ cellIndex y → cellIndex y < H → 0 ≤ cellIndex x → cellIndex x < W →
      ∃ s' : Session, handleEvent H W gen s (.MouseButtonPressed button x y) = some s' ∧
        WellSized H W s'.cells ∧
        (∀ i j, cell s'.cells i j =
          if i = (cellIndex y).toNat ∧ j = (cellIndex x).toNat then v else cell s.cells i j) ∧
        s'.savedCells = s.savedCells ∧ s'.saveOnStart = s.saveOnStart) ∧
    (∀ (button : Button) (x y : Int),
      ∃ s' : Session, handleEvent H W gen s (.MouseButtonReleased button x y) = some s' ∧
        s'.cells = s.cells ∧ s'.savedCells = s.savedCells ∧
        s'.saveOnStart = s.saveOnStart) ∧
    (∀ (e : Event) (s' : Session), e.isPointer = true → handleEvent H W gen s e = some s' →
      s'.savedCells = s.savedCells ∧ s'.saveOnStart = s.saveOnStart) := by
  refine ⟨?_, ?_, ?_, ?_⟩
  · intro hp e he
    cases e with
    | MouseButtonPressed button x y =>
      cases button <;> exact ⟨s, by simp [handleEvent, hp], rfl, rfl, rfl⟩
    | MouseButtonReleased button x y =>
      cases button <;> exact ⟨_, rfl, rfl, rfl, rfl⟩
    | MouseMoved x y => exact ⟨s, by simp [handleEvent, hp], rfl, rfl, rfl⟩
    | _ => simp [Event.isPointer] at he
  · intro hp hw button v x y hbv hr0 hr hc0 hc
    obtain ⟨hL, hR⟩ := handleEvent_press H W gen s x y hp hw hr0 hr hc0 hc
    have hi : (cellIndex y).toNat < H := by omega
    have hj : (cellIndex x).toNat < W := by omega
    rcases hbv with ⟨rfl, rfl⟩ | ⟨rfl, rfl⟩
    · exact ⟨_, hL, setCell_wellSized hw _ _ _, fun i j => cell_setCell hw hi hj _ i j,
        rfl, rfl⟩
    · exact ⟨_, hR, setCell_wellSized hw _ _ _, fun i j => cell_setCell hw hi hj _ i j,
        rfl, rfl⟩
  · intro button x y
    cases button <;> exact ⟨_, rfl, rfl, rfl, rfl⟩
  · intro e s' he h
    cases e with
    | MouseButtonPressed button x y =>
      cases button <;> simp only [handleEvent] at h
      · split_ifs at h
        · rw [Option.map_eq_some'] at h
          obtain ⟨c, -, rfl⟩ := h
          exact ⟨rfl, rfl⟩
        · cases h; exact ⟨rfl, rfl⟩
      · split_ifs at h
        · rw [Option.map_eq_some'] at h
          obtain ⟨c, -, rfl⟩ := h
          exact ⟨rfl, rfl⟩
        · cases h; exact ⟨rfl, rfl⟩
      all_goals (cases h; exact ⟨rfl, rfl⟩)
    | MouseButtonReleased button x y =>
      cases button <;> simp only [handleEvent] at h <;> cases h <;> exact ⟨rfl, rfl⟩
    | MouseMoved x y =>
      simp only [handleEvent] at h
      split_ifs at h
      all_goals first
        | (cases h; exact ⟨rfl, rfl⟩)
        | (rw [Option.map_eq_some'] at h
           obtain ⟨c, -, rfl⟩ := h
           exact ⟨rfl, rfl⟩)
    | _ => simp [Event.isPointer] at he

theorem pointer_events_frame_witness :
    pausedLone.isPlaying = false ∧ WellSized 3 3 pausedLone.cells ∧
      (0 ≤ cellIndex 7 ∧ cellIndex 7 < (3 : Nat)) ∧ (0 ≤ cellIndex 12 ∧ cellIndex 12 < (3 : Nat)) ∧
      ∃ s' : Session,
        handleEvent 3 3 onesGen pausedLone (.MouseButtonPressed .Left 12 7) = some s' ∧
        WellSized 3 3 s'.cells ∧
        (∀ i j, cell s'.cells i j =
          if i = (cellIndex 7).toNat ∧ j = (cellIndex 12).toNat then ALIVE
          else cell pausedLone.cells i j) ∧
        s'.savedCells = pausedLone.savedCells ∧ s'.saveOnStart = pausedLone.saveOnStart :=
  ⟨by decide, by decide, by decide, by decide,
    (pointer_events_frame 3 3 onesGen pausedLone).2.1 (by decide) (by decide) .Left ALIVE 12 7
      (Or.inl ⟨rfl, rfl⟩) (by decide) (by decide) (by decide) (by decide)⟩

/-- C10: on a torus of at least 4 x 4, a grid whose ALIVE cells are exactly the 2 x 2
block at rows `r`, `r + 1` and columns `c`, `c + 1` is again the current grid after
`updateCells` has been applied `k` times, for every `k`. -/
theorem block_still_life (H W : Nat) (hH : 4 ≤ H) (hW : 4 ≤ W) (g scratch : Grid)
    (r c : Nat) (hr : r + 1 < H) (hc : c + 1 < W) (hg : WellSized H W g)
    (hs : WellSized H W scratch)
    (hblock : ∀ i < H, ∀ j < W,
      (cell g i j = ALIVE ↔ (i = r ∨ i = r + 1) ∧ (j = c ∨ j = c + 1)))
    (k : Nat) : ∃ s' : Grid, updateCellsTimes H W k (g, scratch) = some (g, s') := by
  have hfix : lifeStep H W g = g :=
    lifeStep_block hH hW g r c hr hc hg (fun i j hi hj => hblock i hi j hj)
  induction k generalizing scratch with
  | zero => exact ⟨scratch, rfl⟩
  | succ k ih =>
    obtain ⟨s', h'⟩ := ih g hg
    refine ⟨s', ?_⟩
    unfold updateCellsTimes
    rw [updateCells_eq hg hs, hfix, Option.some_bind]
    exact h'

theorem block_still_life_witness :
    4 ≤ 4 ∧ 1 + 1 < 4 ∧ WellSized 4 4 block4 ∧ WellSized 4 4 (deadGrid 4 4) ∧
      (∀ i < 4, ∀ j < 4,
        (cell block4 i j = ALIVE ↔ (i = 1 ∨ i = 1 + 1) ∧ (j = 1 ∨ j = 1 + 1))) ∧
      ∃ s' : Grid, updateCellsTimes 4 4 5 (block4, deadGrid 4 4) = some (block4, s') :=
  ⟨by decide, by decide, by decide, by decide, by decide,
    block_still_life 4 4 (by decide) (by decide) block4 (deadGrid 4 4) 1 1 (by decide)
      (by decide) (by decide) (by decide) (by decide) 5⟩

/-- C13 (amended): the index the mouse handlers compute from a pixel coordinate `p` is
`p / GRID_SIZE` truncated toward zero.  For `p ≥ 0`, which covers every pixel inside the
window, this is `floor(p / GRID_SIZE)`; for negative `p` it is the ceiling
`-floor(-p / GRID_SIZE)`, which is `floor(p / GRID_SIZE) + 1` unless `GRID_SIZE`
divides `p`. -/
theorem cellIndex_truncates (p : Int) :
    cellIndex p = p.tdiv GRID_SIZE ∧
    (0 ≤ p → cellIndex p = p.fdiv GRID_SIZE) ∧
    (p < 0 → cellIndex p = -((-p).fdiv GRID_SIZE)) ∧
    (p < 0 → ¬ GRID_SIZE ∣ p → cellIndex p = p.fdiv GRID_SIZE + 1) := by
  have h5 : GRID_SIZE = 5 := rfl
  refine ⟨cellIndex_eq_tdiv p, ?_, ?_, ?_⟩
  · intro hp
    rw [cellIndex_eq_tdiv, Int.tdiv_eq_ediv hp (by decide), Int.fdiv_eq_ediv _ (by decide)]
  · intro hp
    have hneg : p = -(-p) := by omega
    rw [cellIndex_eq_tdiv, Int.fdiv_eq_ediv _ (by decide)]
    conv_lhs => rw [hneg, Int.neg_tdiv, Int.tdiv_eq_ediv (by omega) (by decide)]
  · intro hp hdvd
    have hneg : p = -(-p) := by omega
    rw [cellIndex_eq_tdiv, Int.fdiv_eq_ediv _ (by decide)]
    conv_lhs => rw [hneg, Int.neg_tdiv, Int.tdiv_eq_ediv (by omega) (by decide)]
    rw [h5] at hdvd ⊢
    omega

theorem cellIndex_truncates_witness :
    (0 : Int) ≤ 1199 ∧ cellIndex 1199 = (1199 : Int).fdiv GRID_SIZE ∧ cellIndex 1199 = 239 :=
  ⟨by decide, (cellIndex_truncates 1199).2.1 (by decide), by decide⟩

/-- C13 as stated fails at a negative coordinate: for pixel -1 the handlers compute
index 0, while `floor(-1 / GRID_SIZE)` is -1. -/
theorem cellIndex_not_floor_counterexample :
    cellIndex (-1) = 0 ∧ (-1 : Int).fdiv GRID_SIZE = -1 ∧
      cellIndex (-1) ≠ (-1 : Int).fdiv GRID_SIZE := by
  decide

/-- C19: for `0 < b ≤ 2^30` the sum `b + a % b` inside `modulo` stays within 32 bits,
and `modulo a b` lies in `[0, b)`, is the mathematical `a mod b`, is congruent to `a`
modulo `b`, gives `b - 1` at `a = -1` and `0` at `a = b`, and agrees with
`((a % b) + b) % b`, the remainders being the truncating ones of C++. -/
theorem modulo_is_nonneg_mod (a b : Int) (hb : 0 < b) (hb30 : b ≤ 2 ^ 30) :
    (-(2 : Int) ^ 31 ≤ b + a.tmod b ∧ b + a.tmod b < 2 ^ 31) ∧
    (0 ≤ modulo a b ∧ modulo a b < b) ∧
    modulo a b = a % b ∧
    b ∣ (modulo a b - a) ∧
    modulo (-1) b = b - 1 ∧
    modulo b b = 0 ∧
    modulo a b = (a.tmod b + b).tmod b := by
  have h1 := neg_lt_tmod a hb
  have h2 := Int.tmod_lt_of_pos a hb
  have hpow : (2 : Int) ^ 31 = 2 * 2 ^ 30 := by norm_num
  refine ⟨⟨by omega, by omega⟩, ⟨modulo_nonneg a hb, modulo_lt a hb⟩, modulo_eq_emod a hb,
    ?_, ?_, ?_, ?_⟩
  · rw [modulo_eq_emod a hb]
    exact ⟨-(a / b), by rw [Int.emod_def]; ring⟩
  · rw [modulo_eq_emod _ hb, ← Int.add_emod_self, Int.emod_eq_of_lt (by omega) (by omega)]
    ring
  · rw [modulo_eq_emod _ hb, Int.emod_self]
  · unfold modulo
    rw [Int.add_comm]

theorem modulo_is_nonneg_mod_witness :
    (0 : Int) < 240 ∧ (240 : Int) ≤ 2 ^ 30 ∧ modulo (-1) 240 = 239 ∧ modulo 240 240 = 0 := by
  have h := modulo_is_nonneg_mod (-1) 240 (by decide) (by decide)
  exact ⟨by decide, by decide, h.2.2.2.2.1, h.2.2.2.2.2.1⟩

/-- C14: the grid `updateCells` leaves as current grid depends only on the input current
grid: with any two well-sized scratch buffers both calls are defined and leave the same
current grid. -/
theorem updateCells_deterministic (H W : Nat) (c s1 s2 : Grid) (hc : WellSized H W c)
    (h1 : WellSized H W s1) (h2 : WellSized H W s2) :
    ∃ g' : Grid, (updateCells H W c s1).map Prod.fst = some g' ∧
      (updateCells H W c s2).map Prod.fst = some g' :=
  ⟨lifeStep H W c, by rw [updateCells_eq hc h1]; rfl, by rw [updateCells_eq hc h2]; rfl⟩

theorem updateCells_deterministic_witness :
    WellSized 3 3 loneCentre ∧ WellSized 3 3 (deadGrid 3 3) ∧
      ∃ g' : Grid, (updateCells 3 3 loneCentre (deadGrid 3 3)).map Prod.fst = some g' ∧
        (updateCells 3 3 loneCentre loneCentre).map Prod.fst = some g' :=
  ⟨by decide, by decide,
    updateCells_deterministic 3 3 loneCentre (deadGrid 3 3) loneCentre (by decide)
      (by decide) (by decide)⟩

/-- C15: `updateCells` never changes the generation it is given: whenever it returns, the
second buffer is the old current grid, cell for cell; and on well-sized buffers it does
return, the new current grid being the next generation computed from the old grid alone
(`lifeStep` reads only the old grid).  In `main`, after a playing pass `previousCells`
is the grid the pass started with. -/
theorem updateCells_keeps_input (H W : Nat) (c scratch : Grid) :
    (∀ r : Grid × Grid, updateCells H W c scratch = some r → r.2 = c) ∧
    (WellSized H W c → WellSized H W scratch →
      updateCells H W c scratch = some (lifeStep H W c, c)) ∧
    (∀ s : Session, s.cells = c → s.previousCells = scratch → SizedSession H W s →
      s.isPlaying = true → s.windowOpen = true →
      ∃ s' : Session, tick H W [] s = some s' ∧ s'.previousCells = c ∧
        s'.cells = lifeStep H W c) := by
  refine ⟨?_, fun hc hs => updateCells_eq hc hs, ?_⟩
  · intro r hr
    unfold updateCells at hr
    rw [Option.map_eq_some'] at hr
    obtain ⟨next, -, rfl⟩ := hr
    rfl
  · intro s hcells hprev hs hp ho
    subst hcells
    have ht := (@tick_of_pollEvents H W [] s { s with stepOne := false } hs rfl).1
    rw [ht]
    simp only [hp, Bool.true_or, if_true]
    exact ⟨_, rfl, rfl, rfl⟩

theorem updateCells_keeps_input_witness :
    WellSized 3 3 loneCentre ∧ WellSized 3 3 (deadGrid 3 3) ∧
      updateCells 3 3 loneCentre (deadGrid 3 3) = some (lifeStep 3 3 loneCentre, loneCentre) :=
  ⟨by decide, by decide,
    (updateCells_keeps_input 3 3 loneCentre (deadGrid 3 3)).2.1 (by decide) (by decide)⟩

/-- C16: every session `main` reaches after any passes of its loop has `cells`,
`previousCells` and `savedCells` of exactly `H` rows of `W` columns, `updateCells` is
defined on its buffers, and whatever event is handled next keeps the sizes; passes whose
pointer events have in-range indices are always defined; and the indices UP, DOWN, LEFT,
RIGHT that `updateCells` computes lie in `[0, H)` and `[0, W)`. -/
theorem dimensions_invariant (H W : Nat) (gen : Nat → Int)
    (passes : List (List (Event × (Nat → Int)))) :
    (∀ s : Session, mainAfter H W gen passes = some s →
      SizedSession H W s ∧
      updateCells H W s.cells s.previousCells = some (lifeStep H W s.cells, s.cells) ∧
      ∀ (e : Event) (gen2 : Nat → Int) (s' : Session),
        handleEvent H W gen2 s e = some s' → SizedSession H W s') ∧
    ((∀ events ∈ passes, ∀ p ∈ events, p.1.inRange H W = true) →
      ∃ s : Session, mainAfter H W gen passes = some s) ∧
    (∀ i < H, 0 ≤ modulo ((i : Int) - 1) H ∧ modulo ((i : Int) - 1) H < H ∧
      0 ≤ modulo ((i : Int) + 1) H ∧ modulo ((i : Int) + 1) H < H) ∧
    (∀ j < W, 0 ≤ modulo ((j : Int) - 1) W ∧ modulo ((j : Int) - 1) W < W ∧
      0 ≤ modulo ((j : Int) + 1) W ∧ modulo ((j : Int) + 1) W < W) := by
  refine ⟨?_, ?_, ?_, ?_⟩
  · intro s hs
    have hsz := mainAfter_sized hs
    exact ⟨hsz, updateCells_eq hsz.1 hsz.2.1, fun e gen2 s' h => handleEvent_sized hsz h⟩
  · intro hin
    unfold mainAfter
    rw [initialSession_eq, Option.some_bind]
    exact runLoop_defined passes
      ⟨drawnGrid_wellSized H W true gen, drawnGrid_wellSized H W true gen,
        drawnGrid_wellSized H W true gen⟩ hin
  · intro i hi
    have hH : (0 : Int) < H := by omega
    exact ⟨modulo_nonneg _ hH, modulo_lt _ hH, modulo_nonneg _ hH, modulo_lt _ hH⟩
  · intro j hj
    have hW : (0 : Int) < W := by omega
    exact ⟨modulo_nonneg _ hW, modulo_lt _ hW, modulo_nonneg _ hW, modulo_lt _ hW⟩

theorem dimensions_invariant_witness :
    (∀ events ∈ samplePasses, ∀ p ∈ events, p.1.inRange 3 3 = true) ∧
      ∃ s : Session, mainAfter 3 3 onesGen samplePasses = some s ∧ SizedSession 3 3 s := by
  have hin : ∀ events ∈ samplePasses, ∀ p ∈ events, p.1.inRange 3 3 = true := by decide
  obtain ⟨s, hs⟩ := (dimensions_invariant 3 3 onesGen samplePasses).2.1 hin
  exact ⟨hin, s, hs, ((dimensions_invariant 3 3 onesGen samplePasses).1 s hs).1⟩

/-- C17: for every stream of draws `initCells(true)` is defined and returns an `H x W`
grid in which cell `(i, j)` is ALIVE exactly when draw number `i * W + j` is 0; the state
of a cell is the same under any other stream with the same draw at that position; and of
the four values 0, 1, 2, 3 that draw can take, exactly one makes the cell ALIVE. -/
theorem initCells_randomized (H W : Nat) (gen : Nat → Int) :
    ∃ g : Grid, initCells H W true gen = some g ∧ WellSized H W g ∧
      (∀ i < H, ∀ j < W, (cell g i j = ALIVE ↔ gen (i * W + j) = 0)) ∧
      (∀ i < H, ∀ j < W, ∀ gen2 : Nat → Int, gen2 (i * W + j) = gen (i * W + j) →
        (initCells H W true gen2).map (fun g2 => cell g2 i j) = some (cell g i j)) ∧
      (∀ i < H, ∀ j < W,
        ((List.range 4).countP fun v =>
          (initCells H W true (Function.update gen (i * W + j) (v : Int))).map
            (fun g2 => cell g2 i j) = some ALIVE) = 1) := by
  refine ⟨drawnGrid H W true gen, initCells_eq H W true gen, drawnGrid_wellSized H W true gen,
    ?_, ?_, ?_⟩
  · intro i hi j hj
    rw [cell_drawnGrid true gen hi hj]
    simp [ALIVE]
  · intro i hi j hj gen2 h2
    rw [initCells_eq, Option.map_some', cell_drawnGrid true gen hi hj,
      cell_drawnGrid true gen2 hi hj, h2]
  · intro i hi j hj
    simp only [initCells_eq, Option.map_some', cell_drawnGrid true _ hi hj,
      Function.update_same]
    decide

/-- C18: a pass of a PLAYING session in which the Right key is pressed any number of
times is defined and ends with the same current grid as a pass with no event, which is
the next generation of the grid the pass started with, one generation on. -/
theorem step_once_playing (H W : Nat) (s : Session) (events : List (Event × (Nat → Int)))
    (hp : s.isPlaying = true) (hc : WellSized H W s.cells)
    (hv : WellSized H W s.previousCells)
    (hev : ∀ p ∈ events, p.1 = .KeyPressed .Right) :
    ∃ s1 s0 : Session, tick H W events s = some s1 ∧ tick H W [] s = some s0 ∧
      s1.cells = s0.cells ∧ s0.cells = lifeStep H W s.cells := by
  obtain ⟨s', h1, h2, h3, h4⟩ := pollEvents_rights H W events { s with stepOne := false } hev
  have h2' : s'.cells = s.cells := h2
  have h3' : s'.previousCells = s.previousCells := h3
  have h4' : s'.isPlaying = true := by rw [h4]; exact hp
  refine ⟨{ s' with cells := lifeStep H W s.cells, previousCells := s.cells },
    { s with stepOne := false, cells := lifeStep H W s.cells, previousCells := s.cells },
    ?_, ?_, rfl, rfl⟩
  · unfold tick
    rw [h1, Option.some_bind, h2', h3', drawGridFromCells_eq hc, Option.some_bind,
      updateCells_eq hc hv]
    simp [h4']
  · unfold tick pollEvents
    rw [Option.some_bind, drawGridFromCells_eq hc, Option.some_bind, updateCells_eq hc hv]
    simp [hp]

theorem step_once_playing_witness :
    playingLone.isPlaying = true ∧ WellSized 3 3 playingLone.cells ∧
      WellSized 3 3 playingLone.previousCells ∧
      ∃ s1 s0 : Session,
        tick 3 3 [(.KeyPressed .Right, onesGen), (.KeyPressed .Right, onesGen)] playingLone
          = some s1 ∧
        tick 3 3 [] playingLone = some s0 ∧
        s1.cells = s0.cells ∧ s0.cells = lifeStep 3 3 playingLone.cells :=
  ⟨by decide, by decide, by decide,
    step_once_playing 3 3 playingLone
      [(.KeyPressed .Right, onesGen), (.KeyPressed .Right, onesGen)]
      (by decide) (by decide) (by decide) (by simp)⟩

/-- C20: a PLAYING session with `saveOnStart` set is reachable: `main` is in one after a
first pass in which Backspace is released.  In every PLAYING session with `saveOnStart`
set, a Right key press sets `savedCells` to the current grid and clears `saveOnStart`,
the session staying PLAYING. -/
theorem step_key_rebaselines_while_playing (H W : Nat) (gen0 gen1 gen2 : Nat → Int) :
    (∃ s : Session, mainAfter H W gen0 [[(.KeyReleased .Backspace, gen1)]] = some s ∧
      s.isPlaying = true ∧ s.saveOnStart = true ∧ s.windowOpen = true) ∧
    (∀ s : Session, s.isPlaying = true → s.saveOnStart = true →
      ∃ s' : Session, handleEvent H W gen2 s (.KeyPressed .Right) = some s' ∧
        s'.savedCells = s.cells ∧ s'.saveOnStart = false ∧ s'.isPlaying = true ∧
        s'.cells = s.cells) := by
  constructor
  · have hd := deadGrid_wellSized H W
    have hg := drawnGrid_wellSized H W true gen0
    refine ⟨{ cells := lifeStep H W (deadGrid H W), previousCells := deadGrid H W,
              savedCells := drawnGrid H W true gen0, isPlaying := true, saveOnStart := true,
              leftMouseButtonHeld := false, rightMouseButtonHeld := false, stepOne := false,
              currentFramerate := PLAYING_FRAMERATE, windowOpen := true }, ?_, rfl, rfl, rfl⟩
    unfold mainAfter
    rw [initialSession_eq, Option.some_bind]
    unfold runLoop tick pollEvents
    simp only [if_true, handleEvent_backspace, Option.some_bind, pollEvents,
      drawGridFromCells_eq hd, updateCells_eq hd hg, Bool.true_or, Option.map_some', runLoop]
  · intro s hp hf
    refine ⟨_, handleEvent_right H W gen2 s, ?_, rfl, hp, rfl⟩
    simp [hf]

theorem step_key_rebaselines_while_playing_witness :
    ∃ s s' : Session,
      mainAfter 3 3 onesGen [[(.KeyReleased .Backspace, onesGen)]] = some s ∧
      s.isPlaying = true ∧ s.saveOnStart = true ∧
      handleEvent 3 3 onesGen s (.KeyPressed .Right) = some s' ∧
      s'.savedCells = s.cells ∧ s'.saveOnStart = false := by
  obtain ⟨⟨s, hs, hp, hf, -⟩, hstep⟩ := step_key_rebaselines_while_playing 3 3 onesGen onesGen onesGen
  obtain ⟨s', h1, h2, h3, -, -⟩ := hstep s hp hf
  exact ⟨s, s', hs, hp, hf, h1, h2, h3⟩

/-- C11: on a torus of at least 5 x 5, from a grid whose ALIVE cells are exactly the
horizontal line `(r, c-1)`, `(r, c)`, `(r, c+1)`, one `updateCells` leaves the grid whose
ALIVE cells are exactly the vertical line `(r-1, c)`, `(r, c)`, `(r+1, c)`, and a second
`updateCells` leaves the original grid again. -/
theorem blinker_period_two (H W : Nat) (hH : 5 ≤ H) (hW : 5 ≤ W) (g scratch : Grid)
    (r c : Nat) (hr1 : 1 ≤ r) (hr : r + 1 < H) (hc1 : 1 ≤ c) (hc : c + 1 < W)
    (hg : WellSized H W g) (hs : WellSized H W scratch)
    (hline : ∀ i < H, ∀ j < W,
      (cell g i j = ALIVE ↔ i = r ∧ (j = c - 1 ∨ j = c ∨ j = c + 1))) :
    ∃ g1 s1 s2 : Grid, updateCells H W g scratch = some (g1, s1) ∧ WellSized H W g1 ∧
      (∀ i < H, ∀ j < W,
        (cell g1 i j = ALIVE ↔ (i = r - 1 ∨ i = r ∨ i = r + 1) ∧ j = c)) ∧
      updateCells H W g1 s1 = some (g, s2) := by
  have hw1 := lifeStep_wellSized H W g
  have hv : ∀ i j, i < H → j < W →
      (cell (lifeStep H W g) i j = ALIVE ↔ (i = r - 1 ∨ i = r ∨ i = r + 1) ∧ j = c) := by
    intro i j hi hj
    rw [lifeStep_hline hH hW g r c hr1 hr hc1 hc (fun i j hi hj => hline i hi j hj) hi hj]
    simp [ALIVE]
  have hback : lifeStep H W (lifeStep H W g) = g := by
    apply grid_ext (lifeStep_wellSized H W _) hg
    intro i j hi hj
    rw [lifeStep_vline hH hW _ r c hr1 hr hc1 hc hv hi hj, Bool.eq_iff_iff]
    have := hline i hi j hj
    simp only [ALIVE] at this
    simp only [decide_eq_true_eq]
    exact this.symm
  refine ⟨lifeStep H W g, g, lifeStep H W g, updateCells_eq hg hs, hw1,
    fun i hi j hj => hv i j hi hj, ?_⟩
  rw [updateCells_eq hw1 hg, hback]

theorem blinker_period_two_witness :
    WellSized 5 5 blinker5 ∧ WellSized 5 5 (deadGrid 5 5) ∧
      (∀ i < 5, ∀ j < 5,
        (cell blinker5 i j = ALIVE ↔ i = 2 ∧ (j = 2 - 1 ∨ j = 2 ∨ j = 2 + 1))) ∧
      ∃ g1 s1 s2 : Grid, updateCells 5 5 blinker5 (deadGrid 5 5) = some (g1, s1) ∧
        WellSized 5 5 g1 ∧
        (∀ i < 5, ∀ j < 5,
          (cell g1 i j = ALIVE ↔ (i = 2 - 1 ∨ i = 2 ∨ i = 2 + 1) ∧ j = 2)) ∧
        updateCells 5 5 g1 s1 = some (blinker5, s2) :=
  ⟨by decide, by decide, by decide,
    blinker_period_two 5 5 (by decide) (by decide) blinker5 (deadGrid 5 5) 2 2 (by decide)
      (by decide) (by decide) (by decide) (by decide) (by decide) (by decide)⟩

/-- C12: `modulo` sends row `0 - 1` to `H - 1`, column `0 - 1` to `W - 1`, and row
`(H - 1) + 1` and column `(W - 1) + 1` to 0.  On a torus of at least 3 x 3 the value of
`numNeighbors` that the loop body of `updateCells` computes for cell `(0, 0)` is the
number of ALIVE cells among `(H-1, W-1)`, `(H-1, 0)`, `(H-1, 1)`, `(0, W-1)`, `(0, 1)`,
`(1, W-1)`, `(1, 0)`, `(1, 1)`, and for cell `(H-1, W-1)` among `(H-2, W-2)`,
`(H-2, W-1)`, `(H-2, 0)`, `(H-1, W-2)`, `(H-1, 0)`, `(0, W-2)`, `(0, W-1)`, `(0, 0)`;
turning `(H-1, W-1)` from DEAD to ALIVE raises the count of `(0, 0)` by one, and turning
`(0, 0)` from DEAD to ALIVE raises the count of `(H-1, W-1)` by one; the cells
`updateCells` writes at `(0, 0)` and `(H-1, W-1)` are the rule applied to these counts.
From a grid whose only ALIVE cells are `(H-1, W-1)`, `(0, 1)`, `(1, 0)` one `updateCells`
leaves `(0, 0)` ALIVE, and from one whose only ALIVE cells are `(0, 0)`, `(H-1, W-2)`,
`(H-2, W-1)` it leaves `(H-1, W-1)` ALIVE. -/
theorem wrap_around_corner (H W : Nat) (hH : 3 ≤ H) (hW : 3 ≤ W) (g scratch : Grid)
    (hg : WellSized H W g) (hs : WellSized H W scratch) :
    (modulo ((0 : Int) - 1) H = (H : Int) - 1 ∧ modulo ((0 : Int) - 1) W = (W : Int) - 1 ∧
      modulo (((H : Int) - 1) + 1) H = 0 ∧ modulo (((W : Int) - 1) + 1) W = 0) ∧
    (∀ (i j : Nat) (next : Grid), updateCell H W g i j next =
      (numNeighbors H W g i j).bind fun n =>
        (g.at? i j).bind fun here =>
          if here = ALIVE ∧ (n = 2 ∨ n = 3) then next.set? i j ALIVE
          else if here = DEAD ∧ n = 3 then next.set? i j ALIVE
          else next.set? i j DEAD) ∧
    (numNeighbors H W g 0 0 =
      some ((count8 (cell g (H - 1) (W - 1)) (cell g (H - 1) 0) (cell g (H - 1) 1)
          (cell g 0 (W - 1)) (cell g 0 1) (cell g 1 (W - 1)) (cell g 1 0) (cell g 1 1) : Nat) : Int)) ∧
    (numNeighbors H W g (H - 1) (W - 1) =
      some ((count8 (cell g (H - 2) (W - 2)) (cell g (H - 2) (W - 1)) (cell g (H - 2) 0)
          (cell g (H - 1) (W - 2)) (cell g (H - 1) 0)
          (cell g 0 (W - 2)) (cell g 0 (W - 1)) (cell g 0 0) : Nat) : Int)) ∧
    (∃ n : Int, numNeighbors H W (setCell g (H - 1) (W - 1) DEAD) 0 0 = some n ∧
      numNeighbors H W (setCell g (H - 1) (W - 1) ALIVE) 0 0 = some (n + 1)) ∧
    (∃ n : Int, numNeighbors H W (setCell g 0 0 DEAD) (H - 1) (W - 1) = some n ∧
      numNeighbors H W (setCell g 0 0 ALIVE) (H - 1) (W - 1) = some (n + 1)) ∧
    (∃ g1 s1 : Grid, updateCells H W g scratch = some (g1, s1) ∧
      cell g1 0 0 = lifeRule (cell g 0 0)
        (count8 (cell g (H - 1) (W - 1)) (cell g (H - 1) 0) (cell g (H - 1) 1)
          (cell g 0 (W - 1)) (cell g 0 1) (cell g 1 (W - 1)) (cell g 1 0) (cell g 1 1)) ∧
      cell g1 (H - 1) (W - 1) = lifeRule (cell g (H - 1) (W - 1))
        (count8 (cell g (H - 2) (W - 2)) (cell g (H - 2) (W - 1)) (cell g (H - 2) 0)
          (cell g (H - 1) (W - 2)) (cell g (H - 1) 0)
          (cell g 0 (W - 2)) (cell g 0 (W - 1)) (cell g 0 0))) ∧
    (aliveNeighbours H W (setCell g (H - 1) (W - 1) ALIVE) 0 0 =
      aliveNeighbours H W (setCell g (H - 1) (W - 1) DEAD) 0 0 + 1) ∧
    (aliveNeighbours H W (setCell g 0 0 ALIVE) (H - 1) (W - 1) =
      aliveNeighbours H W (setCell g 0 0 DEAD) (H - 1) (W - 1) + 1) ∧
    ((∀ i < H, ∀ j < W, (cell g i j = ALIVE ↔
        (i = H - 1 ∧ j = W - 1) ∨ (i = 0 ∧ j = 1) ∨ (i = 1 ∧ j = 0))) →
      ∃ g1 s1 : Grid, updateCells H W g scratch = some (g1, s1) ∧ cell g1 0 0 = ALIVE) ∧
    ((∀ i < H, ∀ j < W, (cell g i j = ALIVE ↔
        (i = 0 ∧ j = 0) ∨ (i = H - 1 ∧ j = W - 2) ∨ (i = H - 2 ∧ j = W - 1))) →
      ∃ g1 s1 : Grid, updateCells H W g scratch = some (g1, s1) ∧
        cell g1 (H - 1) (W - 1) = ALIVE) := by
  have hH0 : (0 : Int) < H := by omega
  have hW0 : (0 : Int) < W := by omega
  have hH2 : 2 ≤ H := by omega
  have hW2 : 2 ≤ W := by omega
  have hi : H - 1 < H := by omega
  have hj : W - 1 < W := by omega
  have h0i : 0 < H := by omega
  have h0j : 0 < W := by omega
  have h1i : 1 < H := by omega
  have h1j : 1 < W := by omega
  have h2i : H - 2 < H := by omega
  have h2j : W - 2 < W := by omega
  refine ⟨⟨?_, ?_, ?_, ?_⟩, fun i j next => updateCell_eq_bind H W g i j next,
    numNeighbors_origin hH2 hW2 hg, numNeighbors_corner hH2 hW2 hg, ?_, ?_, ?_, ?_, ?_, ?_, ?_⟩
  · rw [modulo_eq_emod _ hH0, ← Int.add_emod_self, Int.emod_eq_of_lt (by omega) (by omega)]
    ring
  · rw [modulo_eq_emod _ hW0, ← Int.add_emod_self, Int.emod_eq_of_lt (by omega) (by omega)]
    ring
  · rw [modulo_eq_emod _ hH0, Int.sub_add_cancel, Int.emod_self]
  · rw [modulo_eq_emod _ hW0, Int.sub_add_cancel, Int.emod_self]
  · refine ⟨_, numNeighbors_origin hH2 hW2 (setCell_wellSized hg _ _ DEAD), ?_⟩
    rw [numNeighbors_origin hH2 hW2 (setCell_wellSized hg _ _ ALIVE),
      cell_setCell_same hg hi hj ALIVE, cell_setCell_same hg hi hj DEAD,
      cell_setCell_other hg hi hj ALIVE (H - 1) 0 (by omega),
      cell_setCell_other hg hi hj ALIVE (H - 1) 1 (by omega),
      cell_setCell_other hg hi hj ALIVE 0 (W - 1) (by omega),
      cell_setCell_other hg hi hj ALIVE 0 1 (by omega),
      cell_setCell_other hg hi hj ALIVE 1 (W - 1) (by omega),
      cell_setCell_other hg hi hj ALIVE 1 0 (by omega),
      cell_setCell_other hg hi hj ALIVE 1 1 (by omega),
      cell_setCell_other hg hi hj DEAD (H - 1) 0 (by omega),
      cell_setCell_other hg hi hj DEAD (H - 1) 1 (by omega),
      cell_setCell_other hg hi hj DEAD 0 (W - 1) (by omega),
      cell_setCell_other hg hi hj DEAD 0 1 (by omega),
      cell_setCell_other hg hi hj DEAD 1 (W - 1) (by omega),
      cell_setCell_other hg hi hj DEAD 1 0 (by omega),
      cell_setCell_other hg hi hj DEAD 1 1 (by omega)]
    simp only [ALIVE, DEAD, count8_first, Nat.cast_add, Nat.cast_one]
  · refine ⟨_, numNeighbors_corner hH2 hW2 (setCell_wellSized hg _ _ DEAD), ?_⟩
    rw [numNeighbors_corner hH2 hW2 (setCell_wellSized hg _ _ ALIVE),
      cell_setCell_same hg h0i h0j ALIVE, cell_setCell_same hg h0i h0j DEAD,
      cell_setCell_other hg h0i h0j ALIVE (H - 2) (W - 2) (by omega),
      cell_setCell_other hg h0i h0j ALIVE (H - 2) (W - 1) (by omega),
      cell_setCell_other hg h0i h0j ALIVE (H - 2) 0 (by omega),
      cell_setCell_other hg h0i h0j ALIVE (H - 1) (W - 2) (by omega),
      cell_setCell_other hg h0i h0j ALIVE (H - 1) 0 (by omega),
      cell_setCell_other hg h0i h0j ALIVE 0 (W - 2) (by omega),
      cell_setCell_other hg h0i h0j ALIVE 0 (W - 1) (by omega),
      cell_setCell_other hg h0i h0j DEAD (H - 2) (W - 2) (by omega),
      cell_setCell_other hg h0i h0j DEAD (H - 2) (W - 1) (by omega),
      cell_setCell_other hg h0i h0j DEAD (H - 2) 0 (by omega),
      cell_setCell_other hg h0i h0j DEAD (H - 1) (W - 2) (by omega),
      cell_setCell_other hg h0i h0j DEAD (H - 1) 0 (by omega),
      cell_setCell_other hg h0i h0j DEAD 0 (W - 2) (by omega),
      cell_setCell_other hg h0i h0j DEAD 0 (W - 1) (by omega)]
    simp only [ALIVE, DEAD, count8_last, Nat.cast_add, Nat.cast_one]
  · refine ⟨lifeStep H W g, g, updateCells_eq hg hs, ?_, ?_⟩
    · rw [cell_lifeStep g h0i h0j, aliveNeighbours_origin hH2 hW2]
    · rw [cell_lifeStep g hi hj, aliveNeighbours_corner hH2 hW2]
  · rw [aliveNeighbours_origin hH2 hW2, aliveNeighbours_origin hH2 hW2,
      cell_setCell_same hg hi hj ALIVE, cell_setCell_same hg hi hj DEAD,
      cell_setCell_other hg hi hj ALIVE (H - 1) 0 (by omega),
      cell_setCell_other hg hi hj ALIVE (H - 1) 1 (by omega),
      cell_setCell_other hg hi hj ALIVE 0 (W - 1) (by omega),
      cell_setCell_other hg hi hj ALIVE 0 1 (by omega),
      cell_setCell_other hg hi hj ALIVE 1 (W - 1) (by omega),
      cell_setCell_other hg hi hj ALIVE 1 0 (by omega),
      cell_setCell_other hg hi hj ALIVE 1 1 (by omega),
      cell_setCell_other hg hi hj DEAD (H - 1) 0 (by omega),
      cell_setCell_other hg hi hj DEAD (H - 1) 1 (by omega),
      cell_setCell_other hg hi hj DEAD 0 (W - 1) (by omega),
      cell_setCell_other hg hi hj DEAD 0 1 (by omega),
      cell_setCell_other hg hi hj DEAD 1 (W - 1) (by omega),
      cell_setCell_other hg hi hj DEAD 1 0 (by omega),
      cell_setCell_other hg hi hj DEAD 1 1 (by omega)]
    exact count8_first _ _ _ _ _ _ _
  · rw [aliveNeighbours_corner hH2 hW2, aliveNeighbours_corner hH2 hW2,
      cell_setCell_same hg h0i h0j ALIVE, cell_setCell_same hg h0i h0j DEAD,
      cell_setCell_other hg h0i h0j ALIVE (H - 2) (W - 2) (by omega),
      cell_setCell_other hg h0i h0j ALIVE (H - 2) (W - 1) (by omega),
      cell_setCell_other hg h0i h0j ALIVE (H - 2) 0 (by omega),
      cell_setCell_other hg h0i h0j ALIVE (H - 1) (W - 2) (by omega),
      cell_setCell_other hg h0i h0j ALIVE (H - 1) 0 (by omega),
      cell_setCell_other hg h0i h0j ALIVE 0 (W - 2) (by omega),
      cell_setCell_other hg h0i h0j ALIVE 0 (W - 1) (by omega),
      cell_setCell_other hg h0i h0j DEAD (H - 2) (W - 2) (by omega),
      cell_setCell_other hg h0i h0j DEAD (H - 2) (W - 1) (by omega),
      cell_setCell_other hg h0i h0j DEAD (H - 2) 0 (by omega),
      cell_setCell_other hg h0i h0j DEAD (H - 1) (W - 2) (by omega),
      cell_setCell_other hg h0i h0j DEAD (H - 1) 0 (by omega),
      cell_setCell_other hg h0i h0j DEAD 0 (W - 2) (by omega),
      cell_setCell_other hg h0i h0j DEAD 0 (W - 1) (by omega)]
    exact count8_last _ _ _ _ _ _ _
  · intro halive
    have hT : ∀ x y, x < H → y < W →
        ((x = H - 1 ∧ y = W - 1) ∨ (x = 0 ∧ y = 1) ∨ (x = 1 ∧ y = 0)) → cell g x y = ALIVE :=
      fun x y hx hy h => (halive x hx y hy).2 h
    have hF : ∀ x y, x < H → y < W →
        ¬((x = H - 1 ∧ y = W - 1) ∨ (x = 0 ∧ y = 1) ∨ (x = 1 ∧ y = 0)) → cell g x y = DEAD :=
      fun x y hx hy h => Bool.eq_false_iff.mpr (fun hc => h ((halive x hx y hy).1 hc))
    refine ⟨lifeStep H W g, g, updateCells_eq hg hs, ?_⟩
    rw [cell_lifeStep g h0i h0j, aliveNeighbours_origin hH2 hW2,
      hT (H - 1) (W - 1) hi hj (by omega),
      hF (H - 1) 0 hi h0j (by omega),
      hF (H - 1) 1 hi h1j (by omega),
      hF 0 (W - 1) h0i hj (by omega),
      hT 0 1 h0i h1j (by omega),
      hF 1 (W - 1) h1i hj (by omega),
      hT 1 0 h1i h0j (by omega),
      hF 1 1 h1i h1j (by omega),
      hF 0 0 h0i h0j (by omega)]
    decide
  · intro halive
    have hT : ∀ x y, x < H → y < W →
        ((x = 0 ∧ y = 0) ∨ (x = H - 1 ∧ y = W - 2) ∨ (x = H - 2 ∧ y = W - 1)) →
        cell g x y = ALIVE :=
      fun x y hx hy h => (halive x hx y hy).2 h
    have hF : ∀ x y, x < H → y < W →
        ¬((x = 0 ∧ y = 0) ∨ (x = H - 1 ∧ y = W - 2) ∨ (x = H - 2 ∧ y = W - 1)) →
        cell g x y = DEAD :=
      fun x y hx hy h => Bool.eq_false_iff.mpr (fun hc => h ((halive x hx y hy).1 hc))
    refine ⟨lifeStep H W g, g, updateCells_eq hg hs, ?_⟩
    rw [cell_lifeStep g hi hj, aliveNeighbours_corner hH2 hW2,
      hF (H - 2) (W - 2) h2i h2j (by omega),
      hT (H - 2) (W - 1) h2i hj (by omega),
      hF (H - 2) 0 h2i h0j (by omega),
      hT (H - 1) (W - 2) hi h2j (by omega),
      hF (H - 1) 0 hi h0j (by omega),
      hF 0 (W - 2) h0i h2j (by omega),
      hF 0 (W - 1) h0i hj (by omega),
      hT 0 0 h0i h0j (by omega),
      hF (H - 1) (W - 1) hi hj (by omega)]
    decide

theorem wrap_around_corner_witness :
    WellSized 3 3 corner3 ∧ WellSized 3 3 origin3 ∧ WellSized 3 3 (deadGrid 3 3) ∧
      (∀ i < 3, ∀ j < 3, (cell corner3 i j = ALIVE ↔
        (i = 3 - 1 ∧ j = 3 - 1) ∨ (i = 0 ∧ j = 1) ∨ (i = 1 ∧ j = 0))) ∧
      (∀ i < 3, ∀ j < 3, (cell origin3 i j = ALIVE ↔
        (i = 0 ∧ j = 0) ∨ (i = 3 - 1 ∧ j = 3 - 2) ∨ (i = 3 - 2 ∧ j = 3 - 1))) ∧
      (∃ g1 s1 : Grid, updateCells 3 3 corner3 (deadGrid 3 3) = some (g1, s1) ∧
        cell g1 0 0 = ALIVE) ∧
      (∃ g1 s1 : Grid, updateCells 3 3 origin3 (deadGrid 3 3) = some (g1, s1) ∧
        cell g1 (3 - 1) (3 - 1) = ALIVE) :=
  ⟨by decide, by decide, by decide, by decide, by decide,
    (wrap_around_corner 3 3 (by decide) (by decide) corner3 (deadGrid 3 3) (by decide)
      (by decide)).2.2.2.2.2.2.2.2.2.1 (by decide),
    (wrap_around_corner 3 3 (by decide) (by decide) origin3 (deadGrid 3 3) (by decide)
      (by decide)).2.2.2.2.2.2.2.2.2.2 (by decide)⟩

end SFMLife
